import Mathlib

/-!
# Sector sealing orchestrator (`provider/lpffi/sdr_funcs.go`)

A shallow embedding of the sealing calls of `lpffi` and proofs about them.

* Go values that may fail are `Outcome`s: a normal result, a returned `error`
  (carrying the wrapped message), or a `panic`.
* Collaborators outside the file (the storage index, the local store, the
  proving library, the file system's fault behaviour) are fields of an
  environment record, so every theorem quantifies over all their outcomes.
* Side effects are explicit: stage functions take and return a `World`
  (file contents plus the trace of collaborator calls).
* `json.Marshal` is taken at the level of the JSON document it writes (a value
  tree with the member names of the struct tags), not of its bytes.
-/

namespace Lpffi

/-! ## Results -/

/-- Result of a Go call: a value, a returned `error`, or a `panic`. -/
inductive Outcome (α : Type) where
  | ok (a : α)
  | error (msg : String)
  | panic (msg : String)
deriving DecidableEq, Repr

/-- The `xerrors.Errorf("<ctx>: %w", err)` wrapping used throughout the file. -/
def wrapErr (ctx : String) (e : String) : String := ctx ++ ": " ++ e

/-! ## JSON documents produced by `json.Marshal` -/

/-- A JSON document, as written by `encoding/json`. -/
inductive Json where
  | null
  | num (n : Int)
  | str (s : String)
  | arr (xs : List Json)
  | obj (kvs : List (String × Json))

/-- Look a member up in a JSON object's member list. -/
def Json.lookup (k : String) : List (String × Json) → Option Json
  | [] => none
  | (k', v) :: rest => if k = k' then some v else Json.lookup k rest

/-- A content identifier (`cid.Cid`, a wrapper around its binary string). -/
structure Cid where
  str : List Nat
deriving DecidableEq, Repr

/-- The undefined CID, `cid.Undef`. -/
def Cid.Undef : Cid := ⟨[]⟩

/-! ## Proof classes (`abi.RegisteredSealProof`, an `int64`) -/

/-- A registered seal proof class; any `int64` can be passed. -/
abbrev RegisteredSealProof := Int

/-- The class numbers below are those of `go-state-types/abi`; the proofs use
only that they are distinct. -/
def RegisteredSealProof_StackedDrg2KiBV1_1 : RegisteredSealProof := 5

/-- The 512MiB class of proof version 1.1. -/
def RegisteredSealProof_StackedDrg512MiBV1_1 : RegisteredSealProof := 7

/-- The 32GiB class of proof version 1.1. -/
def RegisteredSealProof_StackedDrg32GiBV1_1 : RegisteredSealProof := 8

/-- The 64GiB class of proof version 1.1. -/
def RegisteredSealProof_StackedDrg64GiBV1_1 : RegisteredSealProof := 9

/-- The 2KiB class with synthetic PoRep. -/
def RegisteredSealProof_StackedDrg2KiBV1_1_Feat_SyntheticPoRep : RegisteredSealProof := 10

/-! ## `makePhase1Out` -/

/-- The local type `Config` of `makePhase1Out`. -/
structure Config where
  ID : String
  Path : String
  RowsToDiscard : Int
  Size : Int
deriving DecidableEq, Repr

/-- The local type `Labels` of `makePhase1Out`; `H` is the `*string` member `_h`. -/
structure Labels where
  H : Option String
  Labels : List Config
deriving DecidableEq, Repr

/-- The local variable `phase1Output` of `makePhase1Out`. `CommD` is the
`[32]byte` array, `Labels` the `map[string]*Labels`, kept as a key-sorted
association list (the order in which `json.Marshal` writes a map). -/
structure Phase1Output where
  CommD : List Nat
  Config : Config
  Labels : List (String × Labels)
  RegisteredProof : String
deriving DecidableEq, Repr

/-- The zero value of `Config`. -/
def Config.zero : Config := ⟨"", "", 0, 0⟩

/-- The zero value of `phase1Output`. -/
def Phase1Output.zero : Phase1Output := ⟨List.replicate 32 0, Config.zero, [], ""⟩

/-- Go's builtin `copy(dst, src)`: overwrites the first `min (len dst) (len src)`
elements of `dst`. -/
def goCopy (dst src : List Nat) : List Nat :=
  src.take dst.length ++ dst.drop src.length

/-- Map assignment `m[k] = v` on the key-sorted association list. -/
def mapSet (m : List (String × Labels)) (k : String) (v : Labels) : List (String × Labels) :=
  match m with
  | [] => [(k, v)]
  | (k', v') :: rest =>
    if k = k' then (k, v) :: rest
    else if k < k' then (k, v) :: (k', v') :: rest
    else (k', v') :: mapSet rest k v

/-- The statement `m[k].Labels = append(m[k].Labels, c)`; the entry is a pointer,
so the append is seen through the map. -/
def mapAppendLabel (m : List (String × Labels)) (k : String) (c : Config) :
    List (String × Labels) :=
  m.map (fun kv => if kv.1 = k then (kv.1, { kv.2 with Labels := kv.2.Labels ++ [c] }) else kv)

/-- One `switch` arm of `makePhase1Out`: the four assignments followed by the
`for i := 0; i < n; i++` loop appending one layer descriptor per iteration. -/
def fillCase (o : Phase1Output) (rootSize : Int) (group : String) (registered : String)
    (n : Nat) (layerPath : String) (layerSize : Int) : Phase1Output :=
  let o1 : Phase1Output := { o with Config := { o.Config with RowsToDiscard := 0 } }
  let o2 : Phase1Output := { o1 with Config := { o1.Config with Size := rootSize } }
  let o3 : Phase1Output := { o2 with Labels := mapSet o2.Labels group ⟨none, []⟩ }
  let o4 : Phase1Output := { o3 with RegisteredProof := registered }
  (List.range n).foldl
    (fun acc i =>
      { acc with
        Labels := mapAppendLabel acc.Labels group
          { ID := "layer-" ++ toString (i + 1)
            Path := layerPath
            RowsToDiscard := 0
            Size := layerSize } })
    o4

/-- The body of `makePhase1Out` after the commitment has been decoded: fills
`phase1Output`; `none` is the `default:` arm, `panic("proof type not handled")`. -/
def buildPhase1Output (commd : List Nat) (spt : RegisteredSealProof) : Option Phase1Output :=
  let o0 := Phase1Output.zero
  let o1 : Phase1Output := { o0 with CommD := goCopy o0.CommD commd }
  let o2 : Phase1Output := { o1 with Config := { o1.Config with ID := "tree-d" } }
  let o3 : Phase1Output := { o2 with Config := { o2.Config with Path := "/placeholder" } }
  let o4 : Phase1Output := { o3 with Labels := [] }
  if spt = RegisteredSealProof_StackedDrg2KiBV1_1 ∨
      spt = RegisteredSealProof_StackedDrg2KiBV1_1_Feat_SyntheticPoRep then
    some (fillCase o4 127 "StackedDrg2KiBV1" "StackedDrg2KiBV1_1" 2 "/placeholder" 64)
  else if spt = RegisteredSealProof_StackedDrg512MiBV1_1 then
    some (fillCase o4 33554431 "StackedDrg512MiBV1" "StackedDrg512MiBV1_1" 2 "placeholder" 16777216)
  else if spt = RegisteredSealProof_StackedDrg32GiBV1_1 then
    some (fillCase o4 2147483647 "StackedDrg32GiBV1" "StackedDrg32GiBV1_1" 11 "/placeholder"
      1073741824)
  else if spt = RegisteredSealProof_StackedDrg64GiBV1_1 then
    some (fillCase o4 4294967295 "StackedDrg64GiBV1" "StackedDrg64GiBV1_1" 11 "/placeholder"
      2147483648)
  else
    none

/-- The document `json.Marshal` writes for a `Config` (member names from the tags). -/
def marshalConfig (c : Config) : Json :=
  .obj [("id", .str c.ID), ("path", .str c.Path),
        ("rows_to_discard", .num c.RowsToDiscard), ("size", .num c.Size)]

/-- The document `json.Marshal` writes for a `*Labels`: a nil `*string` is
`null`, and so is a nil slice (a slice here is nil exactly when it is empty). -/
def marshalLabels (l : Labels) : Json :=
  .obj [("_h", match l.H with
               | none => .null
               | some s => .str s),
        ("labels", match l.Labels with
                   | [] => .null
                   | cs => .arr (cs.map marshalConfig))]

/-- The document `json.Marshal(phase1Output)` writes: the byte array is an array
of numbers, the map an object. -/
def marshalPhase1Output (o : Phase1Output) : Json :=
  .obj [("comm_d", .arr (o.CommD.map (fun (b : Nat) => Json.num (b : Int)))),
        ("config", marshalConfig o.Config),
        ("labels", .obj (o.Labels.map (fun kv => (kv.1, marshalLabels kv.2)))),
        ("registered_proof", .str o.RegisteredProof)]

/-- `SealCalls.makePhase1Out`. The decoder `commcid.CIDToDataCommitmentV1` of the
unsealed CID is the parameter `cidToDataCommitmentV1`. -/
def makePhase1Out (cidToDataCommitmentV1 : Cid → Except String (List Nat))
    (unsCid : Cid) (spt : RegisteredSealProof) : Outcome Json :=
  match cidToDataCommitmentV1 unsCid with
  | .error e => .error (wrapErr "make uns cid" e)
  | .ok commd =>
    match buildPhase1Output commd spt with
    | none => .panic "proof type not handled"
    | some phase1Output => .ok (marshalPhase1Output phase1Output)

/-! ### Reading the layout back -/

def parseString : Json → Option String
  | .str s => some s
  | _ => none

def parseInt : Json → Option Int
  | .num n => some n
  | _ => none

def parseByte : Json → Option Nat
  | .num n => if 0 ≤ n ∧ n < 256 then some n.toNat else none
  | _ => none

/-- Read a descriptor object back into a `Config`. -/
def parseConfig : Json → Option Config
  | .obj kvs => do
    let id ← (Json.lookup "id" kvs).bind parseString
    let path ← (Json.lookup "path" kvs).bind parseString
    let rows ← (Json.lookup "rows_to_discard" kvs).bind parseInt
    let size ← (Json.lookup "size" kvs).bind parseInt
    pure ⟨id, path, rows, size⟩
  | _ => none

/-- Read an array of descriptor objects back, in order. -/
def parseConfigs : List Json → Option (List Config)
  | [] => some []
  | x :: rest => do
    let c ← parseConfig x
    let r ← parseConfigs rest
    pure (c :: r)

/-- Read an array of byte values back, in order. -/
def parseBytes : List Json → Option (List Nat)
  | [] => some []
  | x :: rest => do
    let b ← parseByte x
    let r ← parseBytes rest
    pure (b :: r)

/-- Read a layer group back into a `Labels`. -/
def parseLabels : Json → Option Labels
  | .obj kvs => do
    let h ← match Json.lookup "_h" kvs with
      | some .null => some none
      | some (.str s) => some (some s)
      | _ => none
    let ls ← match Json.lookup "labels" kvs with
      | some .null => some []
      | some (.arr xs) => parseConfigs xs
      | _ => none
    pure ⟨h, ls⟩
  | _ => none

/-- Read the members of the layer-group object back, in document order. -/
def parseGroups : List (String × Json) → Option (List (String × Labels))
  | [] => some []
  | (k, v) :: rest => do
    let l ← parseLabels v
    let r ← parseGroups rest
    pure ((k, l) :: r)

/-- Read a marshalled layout back into a `Phase1Output`. -/
def parsePhase1Output : Json → Option Phase1Output
  | .obj kvs => do
    let commd ← match Json.lookup "comm_d" kvs with
      | some (.arr xs) => parseBytes xs
      | _ => none
    let config ← (Json.lookup "config" kvs).bind parseConfig
    let labels ← match Json.lookup "labels" kvs with
      | some (.obj gs) => parseGroups gs
      | _ => none
    let rp ← (Json.lookup "registered_proof" kvs).bind parseString
    if commd.length = 32 then pure ⟨commd, config, labels, rp⟩ else none
  | _ => none

/-- The documented geometry table: layer-group name, number of layers, layer
size, root-tree size, for each supported class. -/
def geometryTable (spt : RegisteredSealProof) : Option (String × Nat × Int × Int) :=
  if spt = RegisteredSealProof_StackedDrg2KiBV1_1 ∨
      spt = RegisteredSealProof_StackedDrg2KiBV1_1_Feat_SyntheticPoRep then
    some ("StackedDrg2KiBV1", 2, 64, 127)
  else if spt = RegisteredSealProof_StackedDrg512MiBV1_1 then
    some ("StackedDrg512MiBV1", 2, 16777216, 33554431)
  else if spt = RegisteredSealProof_StackedDrg32GiBV1_1 then
    some ("StackedDrg32GiBV1", 11, 1073741824, 2147483647)
  else if spt = RegisteredSealProof_StackedDrg64GiBV1_1 then
    some ("StackedDrg64GiBV1", 11, 2147483648, 4294967295)
  else none

/-- The closed set of supported proof classes. -/
def Supported (spt : RegisteredSealProof) : Prop :=
  spt = RegisteredSealProof_StackedDrg2KiBV1_1 ∨
  spt = RegisteredSealProof_StackedDrg2KiBV1_1_Feat_SyntheticPoRep ∨
  spt = RegisteredSealProof_StackedDrg512MiBV1_1 ∨
  spt = RegisteredSealProof_StackedDrg32GiBV1_1 ∨
  spt = RegisteredSealProof_StackedDrg64GiBV1_1

instance (spt : RegisteredSealProof) : Decidable (Supported spt) := by
  unfold Supported; infer_instance

/-- A valid data commitment: 32 bytes. -/
def ValidCommitment (commd : List Nat) : Prop :=
  commd.length = 32 ∧ ∀ b ∈ commd, b < 256

/-- The layer descriptor appended in iteration `i` of a `switch` arm's loop. -/
def layerConfig (layerPath : String) (layerSize : Int) (i : Nat) : Config :=
  { ID := "layer-" ++ toString (i + 1), Path := layerPath, RowsToDiscard := 0, Size := layerSize }

/-! ## Sectors, artifact kinds, storage locations -/

/-- A set of artifact kinds (`storiface.SectorFileType`), a bit mask. -/
abbrev SectorFileType := Nat

/-- Modelled from the spec: the artifact kinds of `storiface`, which src/ does not
hold. The spec gives a bitset over the kinds None, Unsealed, Sealed and Cache;
`FTNone` is the empty set and each other kind is one bit. -/
def FTNone : SectorFileType := 0

/-- Modelled from the spec: the Unsealed kind of the `storiface` bitset. -/
def FTUnsealed : SectorFileType := 1

/-- Modelled from the spec: the Sealed kind of the `storiface` bitset. -/
def FTSealed : SectorFileType := 2

/-- Modelled from the spec: the Cache kind of the `storiface` bitset. -/
def FTCache : SectorFileType := 4

/-- The capability class of a path (`storiface.PathType`, a string type). -/
abbrev PathType := String

/-- Modelled from the spec: `storiface.PathStorage`, the long-term storage class. -/
def PathStorage : PathType := "storage"

/-- Modelled from the spec: `storiface.PathSealing`, the sealing-capable class. -/
def PathSealing : PathType := "sealing"

/-- Sector identity (`abi.SectorID`). -/
structure SectorID where
  Miner : Nat
  Number : Nat
deriving DecidableEq, Repr

/-- Sector reference (`storiface.SectorRef`). -/
structure SectorRef where
  ID : SectorID
  ProofType : RegisteredSealProof
deriving DecidableEq, Repr

/-- Modelled from the spec: `storiface.SectorPaths`, one path (or, for the
storage ids returned next to the paths, one location id) per artifact kind. -/
structure SectorPaths where
  ID : SectorID
  Unsealed : String
  Sealed : String
  Cache : String
deriving DecidableEq, Repr

/-- Modelled from the spec: a storage location as `StorageFindSector` reports it,
with its identifier and capability flags. -/
structure SectorStorageInfo where
  ID : String
  CanSeal : Bool
  CanStore : Bool
deriving DecidableEq, Repr

/-- The argument of `ffi.VerifySeal` (`proof.SealVerifyInfo`). -/
structure SealVerifyInfo where
  SealProof : RegisteredSealProof
  SectorID : SectorID
  DealIDs : List Nat
  Randomness : List Nat
  InteractiveRandomness : List Nat
  Proof : List Nat
  SealedCID : Cid
  UnsealedCID : Cid
deriving DecidableEq, Repr

/-! ## The world: files and the trace of collaborator calls -/

/-- File contents by path; `none` is an absent file. -/
abbrev FS := String → Option (List Nat)

/-- Write (or create) the file at `path`. -/
def FS.write (fs : FS) (path : String) (content : List Nat) : FS :=
  fun q => if q = path then some content else fs q

/-- Remove the file at `path`. -/
def FS.remove (fs : FS) (path : String) : FS :=
  fun q => if q = path then none else fs q

/-- A call made to a collaborator, with the arguments that matter. -/
inductive Event where
  | storageAcquire (sector : SectorRef) (existing allocate : SectorFileType) (ptype : PathType)
  | reserve (sector : SectorRef) (allocate : SectorFileType) (storageIDs : SectorPaths)
  | releaseStorage
  | declareSector (sid : String) (sector : SectorID) (ft : SectorFileType) (primary : Bool)
  | logError (msg : String)
  | generateSDR (spt : RegisteredSealProof) (cache : String) (replicaID : List Nat)
  | buildTreeD (dest : String) (size : Nat)
  | sealPreCommitPhase2 (cache sealed : String)
  | clearCache (ssize : Nat) (cache : String)
  | reflink (src dst : String)
  | truncate (path : String) (size : Int)
  | openFile (path : String)
  | openRead (path : String)
  | copyN (n : Int)
  | closeFile (path : String)
  | rename (src dst : String)
  | move (src dst : String)
  | findSector (sector : SectorID) (ft : SectorFileType)
  | moveStorage (sector : SectorRef) (types : SectorFileType)
  | removeCopies (sector : SectorID) (ft : SectorFileType)
deriving DecidableEq, Repr

/-- The state a sealing call runs in. -/
structure World where
  fs : FS
  trace : List Event

/-- Record a collaborator call. -/
def World.log (w : World) (e : Event) : World := { w with trace := w.trace ++ [e] }

/-- Everything the sealing calls use but do not define: the tables of
`storiface` and `proofpaths`, the storage index and local store, the commitment
and proof-class helpers, the proving library and the faults of the file system.
A returned `error` is `some msg` (or `Except.error msg`), `nil` is `none`. -/
structure Env where
  PathTypes : List SectorFileType
  PathByType : SectorPaths → SectorFileType → String
  SectorName : SectorID → String
  TreeDName : String
  storageAcquireSector : SectorRef → SectorFileType → SectorFileType → PathType →
    Except String (SectorPaths × SectorPaths)
  localReserve : SectorRef → SectorFileType → SectorPaths → Except String Unit
  storageDeclareSector : String → SectorID → SectorFileType → Bool → Option String
  storageFindSector : SectorID → SectorFileType → Except String (List SectorStorageInfo)
  storageMoveStorage : SectorRef → SectorFileType → Option String
  storageRemoveCopies : SectorID → SectorFileType → Option String
  generatePoRepVanillaProof : SectorRef → Cid → Cid → List Nat → List Nat →
    Except String (List Nat)
  cidToDataCommitmentV1 : Cid → Except String (List Nat)
  replicaId : RegisteredSealProof → Nat → Nat → List Nat → List Nat → Except String (List Nat)
  sectorSize : RegisteredSealProof → Except String Nat
  ffiGenerateSDR : FS → RegisteredSealProof → String → List Nat → Option String × FS
  buildTreeD : FS → List Nat → Bool → String → Nat → Except String Cid × FS
  ffiSealPreCommitPhase2 : FS → Json → String → String → Except String (Cid × Cid) × FS
  ffiSealCommitPhase2 : List Nat → Nat → Nat → Except String (List Nat)
  ffiVerifySeal : SealVerifyInfo → Except String Bool
  ffiClearCache : FS → Nat → String → Option String × FS
  reflinkFault : String → String → Option String
  truncateFault : String → Int → Option String
  openFileFault : String → Option String
  openReadFault : String → Option String
  copyFault : Option (Nat × String)
  closeFault : String → Option String
  renameFault : String → String → Option String
  moveFault : String → String → Option String

/-! ## File-system calls -/

/-- The conversion `int64(ssize)` of a `uint64` sector size. -/
def int64 (n : Nat) : Int :=
  if n % 2 ^ 64 < 2 ^ 63 then ((n % 2 ^ 64 : Nat) : Int) else ((n % 2 ^ 64 : Nat) : Int) - 2 ^ 64

/-- `filepath.Join(dir, name)` for a clean directory path and a plain file name. -/
def filepathJoin (dir name : String) : String := dir ++ "/" ++ name

/-- The content of a file after `truncate(2)` to `n` bytes: cut, or zero-extended. -/
def truncateBytes (content : List Nat) (n : Nat) : List Nat :=
  content.take n ++ List.replicate (n - content.length) 0

/-- The content of a file after writing `data` at offset 0 of a file opened
without `O_TRUNC`: bytes past the written range stay. -/
def writeAtStart (old data : List Nat) : List Nat :=
  data ++ old.drop data.length

/-- `reflink.Always(src, dst)`: clones `src` into a temporary file and renames it
over `dst`; when cloning fails `dst` is left as it was. -/
def reflinkAlways (env : Env) (w : World) (src dst : String) : Option String × World :=
  let w1 := w.log (.reflink src dst)
  match w1.fs src with
  | none => (some "no such file or directory", w1)
  | some content =>
    match env.reflinkFault src dst with
    | some err => (some err, w1)
    | none => (none, { w1 with fs := w1.fs.write dst content })

/-- `os.Truncate(path, size)`. -/
def osTruncate (env : Env) (w : World) (path : String) (size : Int) : Option String × World :=
  let w1 := w.log (.truncate path size)
  match env.truncateFault path size with
  | some err => (some err, w1)
  | none =>
    if size < 0 then (some "invalid argument", w1)
    else
      match w1.fs path with
      | none => (some "no such file or directory", w1)
      | some content => (none, { w1 with fs := w1.fs.write path (truncateBytes content size.toNat) })

/-- `os.OpenFile(path, os.O_WRONLY|os.O_CREATE, 0644)`: creates an empty file when
there is none and keeps an existing file's content. -/
def osOpenFile (env : Env) (w : World) (path : String) : Option String × World :=
  let w1 := w.log (.openFile path)
  match env.openFileFault path with
  | some err => (some err, w1)
  | none =>
    match w1.fs path with
    | none => (none, { w1 with fs := w1.fs.write path [] })
    | some _ => (none, w1)

/-- `os.Open(path)`. -/
def osOpen (env : Env) (w : World) (path : String) : Option String × World :=
  let w1 := w.log (.openRead path)
  match env.openReadFault path with
  | some err => (some err, w1)
  | none =>
    match w1.fs path with
    | none => (some "no such file or directory", w1)
    | some _ => (none, w1)

/-- `io.CopyN(dst, src, n)` between two freshly opened files: writes the first
`n` bytes of `src` at the start of `dst`; fewer than `n` bytes written is an error
(`EOF` when `src` ends early). A fault `(k, err)` stops the copy after `k` bytes. -/
def ioCopyN (env : Env) (w : World) (dst src : String) (n : Int) : Option String × World :=
  let w1 := w.log (.copyN n)
  let source := (w1.fs src).getD []
  let old := (w1.fs dst).getD []
  match env.copyFault with
  | some (k, err) =>
    (some err, { w1 with fs := w1.fs.write dst (writeAtStart old ((source.take n.toNat).take k)) })
  | none =>
    let data := source.take n.toNat
    let w2 : World := { w1 with fs := w1.fs.write dst (writeAtStart old data) }
    if (data.length : Int) < n then (some "EOF", w2) else (none, w2)

/-- `f.Close()` on the file opened at `path`. -/
def osClose (env : Env) (w : World) (path : String) : Option String × World :=
  ((env.closeFault path), w.log (.closeFile path))

/-- `os.Rename(src, dst)`. -/
def osRename (env : Env) (w : World) (src dst : String) : Option String × World :=
  let w1 := w.log (.rename src dst)
  match env.renameFault src dst with
  | some err => (some err, w1)
  | none =>
    match w1.fs src with
    | none => (some "no such file or directory", w1)
    | some content => (none, { w1 with fs := (w1.fs.remove src).write dst content })

/-- Modelled from the spec: `paths.Move(from, to)`, which src/ does not hold; it
moves the file into its final location. -/
def pathsMove (env : Env) (w : World) (src dst : String) : Option String × World :=
  let w1 := w.log (.move src dst)
  match env.moveFault src dst with
  | some err => (some err, w1)
  | none =>
    match w1.fs src with
    | none => (some "no such file or directory", w1)
    | some content => (none, { w1 with fs := (w1.fs.remove src).write dst content })

/-- A `defer release()` registered in world `w`: `release` runs when the body
returns, whatever it returns. -/
def withDefer {α : Type} (release : World → World) (w : World) (body : World → α × World) :
    α × World :=
  ((body w).1, release (body w).2)

/-! ## `storageProvider.AcquireSector` -/

/-- The loop of the release closure over `storiface.PathTypes`. -/
def releaseLoop (env : Env) (sector : SectorRef) (allocate : SectorFileType)
    (storageIDs : SectorPaths) : List SectorFileType → World → World
  | [], w => w
  | fileType :: rest, w =>
    if fileType &&& allocate = 0 then releaseLoop env sector allocate storageIDs rest w
    else
      let sid := env.PathByType storageIDs fileType
      let w1 := w.log (.declareSector sid sector.ID fileType true)
      match env.storageDeclareSector sid sector.ID fileType true with
      | some err =>
        releaseLoop env sector allocate storageIDs rest
          (w1.log (.logError ("declare sector error: " ++ err)))
      | none => releaseLoop env sector allocate storageIDs rest w1

/-- The closure `AcquireSector` returns: `releaseStorage()`, then the loop. -/
def releaseFunc (env : Env) (sector : SectorRef) (allocate : SectorFileType)
    (storageIDs : SectorPaths) (w : World) : World :=
  releaseLoop env sector allocate storageIDs env.PathTypes (w.log .releaseStorage)

/-- `storageProvider.AcquireSector`. The store is asked with `storiface.AcquireMove`
and the reservation made with `storiface.FSOverheadSeal`, both constants; the
`log.Debugf` line is not traced. -/
def AcquireSector (env : Env) (w : World) (sector : SectorRef)
    (existing allocate : SectorFileType) (sealing : PathType) :
    Except String (SectorPaths × (World → World)) × World :=
  let w1 := w.log (.storageAcquire sector existing allocate sealing)
  match env.storageAcquireSector sector existing allocate sealing with
  | .error err => (.error err, w1)
  | .ok (paths, storageIDs) =>
    let w2 := w1.log (.reserve sector allocate storageIDs)
    match env.localReserve sector allocate storageIDs with
    | .error err => (.error (wrapErr "reserving storage space" err), w2)
    | .ok () => (.ok (paths, releaseFunc env sector allocate storageIDs), w2)

/-! ## The sealing calls -/

/-- The body of `SealCalls.GenerateSDR` after `defer releaseSector()`. -/
def generateSDRBody (env : Env) (sector : SectorRef) (ticket : List Nat) (commKcid : Cid)
    (paths : SectorPaths) (w : World) : Except String Unit × World :=
  match env.cidToDataCommitmentV1 commKcid with
  | .error err => (.error (wrapErr "computing commK" err), w)
  | .ok commp =>
    match env.replicaId sector.ProofType sector.ID.Miner sector.ID.Number ticket commp with
    | .error err => (.error (wrapErr "computing replica id" err), w)
    | .ok replicaID =>
      let w1 := w.log (.generateSDR sector.ProofType paths.Cache replicaID)
      match env.ffiGenerateSDR w1.fs sector.ProofType paths.Cache replicaID with
      | (some err, fs1) =>
        (.error (wrapErr ("generating SDR " ++ toString sector.ID.Number ++ " (" ++
          paths.Unsealed ++ ")") err), { w1 with fs := fs1 })
      | (none, fs1) => (.ok (), { w1 with fs := fs1 })

/-- `SealCalls.GenerateSDR`. -/
def GenerateSDR (env : Env) (w : World) (sector : SectorRef) (ticket : List Nat)
    (commKcid : Cid) : Except String Unit × World :=
  match AcquireSector env w sector FTNone FTCache PathSealing with
  | (.error err, w1) => (.error (wrapErr "acquiring sector paths" err), w1)
  | (.ok (paths, releaseSector), w1) =>
    withDefer releaseSector w1 (generateSDRBody env sector ticket commKcid paths)

/-- The body of `SealCalls.TreeD` after `defer releaseSector()`. -/
def treeDBody (env : Env) (size : Nat) (data : List Nat) (unpaddedData : Bool)
    (paths : SectorPaths) (w : World) : Except String Cid × World :=
  let dest := filepathJoin paths.Cache env.TreeDName
  let w1 := w.log (.buildTreeD dest size)
  ((env.buildTreeD w1.fs data unpaddedData dest size).1,
    { w1 with fs := (env.buildTreeD w1.fs data unpaddedData dest size).2 })

/-- `SealCalls.TreeD`. -/
def TreeD (env : Env) (w : World) (sector : SectorRef) (size : Nat) (data : List Nat)
    (unpaddedData : Bool) : Except String Cid × World :=
  let maybeUns := FTNone
  match AcquireSector env w sector FTCache maybeUns PathSealing with
  | (.error err, w1) => (.error (wrapErr "acquiring sector paths" err), w1)
  | (.ok (paths, releaseSector), w1) =>
    withDefer releaseSector w1 (treeDBody env size data unpaddedData paths)

/-- The copy step of `SealCalls.TreeRC`: the tree file's leading bytes go to the
sealed path, by reflink and truncate, or else by the slow copy. -/
def copyTreeDToSealed (env : Env) (paths : SectorPaths) (ssize : Nat) (w : World) :
    Except String Unit × World :=
  let treed := filepathJoin paths.Cache env.TreeDName
  match reflinkAlways env w treed paths.Sealed with
  | (none, w1) =>
    match osTruncate env w1 paths.Sealed (int64 ssize) with
    | (some err, w2) => (.error (wrapErr "truncating reflinked sealed file" err), w2)
    | (none, w2) => (.ok (), w2)
  | (some _, w1) =>
    let w2 := w1.log (.logError "reflink treed -> sealed failed, falling back to slow copy, use single scratch btrfs or xfs filesystem")
    match osOpenFile env w2 paths.Sealed with
    | (some err, w3) => (.error (wrapErr "opening sealed sector file" err), w3)
    | (none, w3) =>
      match osOpen env w3 treed with
      | (some err, w4) => (.error (wrapErr "opening treed sector file" err), w4)
      | (none, w4) =>
        let copied := ioCopyN env w4 paths.Sealed treed (int64 ssize)
        let closed := osClose env copied.2 paths.Sealed
        let w7 := closed.2.log (.closeFile treed)
        match copied.1 with
        | some err => (.error (wrapErr "copying treed -> sealed" err), w7)
        | none =>
          match closed.1 with
          | some derr => (.error (wrapErr "closing sealed file" derr), w7)
          | none => (.ok (), w7)

/-- The body of `SealCalls.TreeRC` after `defer releaseSector()`. -/
def treeRCBody (env : Env) (sector : SectorRef) (p1o : Json) (paths : SectorPaths)
    (w : World) : Except String (Cid × Cid) × World :=
  match env.sectorSize sector.ProofType with
  | .error err => (.error (wrapErr "getting sector size" err), w)
  | .ok ssize =>
    match copyTreeDToSealed env paths ssize w with
    | (.error err, w1) => (.error err, w1)
    | (.ok (), w1) =>
      let w2 := w1.log (.sealPreCommitPhase2 paths.Cache paths.Sealed)
      ((env.ffiSealPreCommitPhase2 w2.fs p1o paths.Cache paths.Sealed).1,
        { w2 with fs := (env.ffiSealPreCommitPhase2 w2.fs p1o paths.Cache paths.Sealed).2 })

/-- `SealCalls.TreeRC`. -/
def TreeRC (env : Env) (w : World) (sector : SectorRef) (unsealed : Cid) :
    Outcome (Cid × Cid) × World :=
  match makePhase1Out env.cidToDataCommitmentV1 unsealed sector.ProofType with
  | .panic msg => (.panic msg, w)
  | .error err => (.error (wrapErr "make phase1 output" err), w)
  | .ok p1o =>
    match AcquireSector env w sector FTCache FTSealed PathSealing with
    | (.error err, w1) => (.error (wrapErr "acquiring sector paths" err), w1)
    | (.ok (paths, releaseSector), w1) =>
      match withDefer releaseSector w1 (treeRCBody env sector p1o paths) with
      | (.error err, w2) => (.error err, w2)
      | (.ok cids, w2) => (.ok cids, w2)

/-- `SealCalls.PoRepSnark`. -/
def PoRepSnark (env : Env) (sn : SectorRef) (sealed unsealed : Cid) (ticket seed : List Nat) :
    Except String (List Nat) :=
  match env.generatePoRepVanillaProof sn sealed unsealed ticket seed with
  | .error err => .error (wrapErr "failed to generate vanilla proof" err)
  | .ok vproof =>
    match env.ffiSealCommitPhase2 vproof sn.ID.Number sn.ID.Miner with
    | .error err => .error (wrapErr "computing seal proof failed" err)
    | .ok proof =>
      match env.ffiVerifySeal
          { SealProof := sn.ProofType
            SectorID := sn.ID
            DealIDs := []
            Randomness := ticket
            InteractiveRandomness := seed
            Proof := proof
            SealedCID := sealed
            UnsealedCID := unsealed } with
      | .error err => .error (wrapErr "failed to verify proof" err)
      | .ok ok => if !ok then .error "porep failed to validate" else .ok proof

/-- The `if keepUnsealed` block of `SealCalls.FinalizeSector`. -/
def keepUnsealedStep (env : Env) (sector : SectorRef) (sectorPaths : SectorPaths) (ssize : Nat)
    (w : World) : Except String Unit × World :=
  let tempUnsealed := filepathJoin sectorPaths.Cache (env.SectorName sector.ID)
  match osRename env w (filepathJoin sectorPaths.Cache env.TreeDName) tempUnsealed with
  | (some err, w1) => (.error (wrapErr "moving tree-d to temp file" err), w1)
  | (none, w1) =>
    match osTruncate env w1 tempUnsealed (int64 ssize) with
    | (some err, w2) => (.error (wrapErr "truncating unsealed file to sector size" err), w2)
    | (none, w2) =>
      match pathsMove env w2 tempUnsealed sectorPaths.Unsealed with
      | (some err, w3) =>
        (.error (wrapErr ("move temp unsealed sector to final location (" ++ tempUnsealed ++
          " -> " ++ sectorPaths.Unsealed ++ ")") err), w3)
      | (none, w3) => (.ok (), w3)

/-- The call `ffi.ClearCache(uint64(ssize), sectorPaths.Cache)` closing
`SealCalls.FinalizeSector`. -/
def clearCacheStep (env : Env) (sectorPaths : SectorPaths) (ssize : Nat) (w : World) :
    Except String Unit × World :=
  let w1 := w.log (.clearCache ssize sectorPaths.Cache)
  match env.ffiClearCache w1.fs ssize sectorPaths.Cache with
  | (some err, fs1) => (.error (wrapErr "clearing cache" err), { w1 with fs := fs1 })
  | (none, fs1) => (.ok (), { w1 with fs := fs1 })

/-- The body of `SealCalls.FinalizeSector` after `defer releaseSector()`. -/
def finalizeSectorBody (env : Env) (sector : SectorRef) (keepUnsealed : Bool)
    (sectorPaths : SectorPaths) (w : World) : Except String Unit × World :=
  match env.sectorSize sector.ProofType with
  | .error err => (.error (wrapErr "getting sector size" err), w)
  | .ok ssize =>
    if keepUnsealed then
      match keepUnsealedStep env sector sectorPaths ssize w with
      | (.error err, w1) => (.error err, w1)
      | (.ok (), w1) => clearCacheStep env sectorPaths ssize w1
    else clearCacheStep env sectorPaths ssize w

/-- `SealCalls.FinalizeSector`. -/
def FinalizeSector (env : Env) (w : World) (sector : SectorRef) (keepUnsealed : Bool) :
    Except String Unit × World :=
  let alloc := if keepUnsealed then FTUnsealed else FTNone
  match AcquireSector env w sector FTCache alloc PathSealing with
  | (.error err, w1) => (.error (wrapErr "acquiring sector paths" err), w1)
  | (.ok (sectorPaths, releaseSector), w1) =>
    withDefer releaseSector w1 (finalizeSectorBody env sector keepUnsealed sectorPaths)

/-- `SealCalls.sectorStorageType`. -/
def sectorStorageType (env : Env) (w : World) (sector : SectorRef) (ft : SectorFileType) :
    Except String (Bool × PathType) × World :=
  let w1 := w.log (.findSector sector.ID ft)
  match env.storageFindSector sector.ID ft with
  | .error err => (.error (wrapErr "finding sector" err), w1)
  | .ok stores =>
    if stores.length = 0 then (.ok (false, ""), w1)
    else if stores.any (fun store => store.CanSeal) then (.ok (true, PathSealing), w1)
    else (.ok (true, PathStorage), w1)

/-- Modelled from the spec: `SectorFileType.AllSet`, which src/ does not hold;
it iterates over the kinds that are members of the set. -/
def allSet (env : Env) (t : SectorFileType) : List SectorFileType :=
  env.PathTypes.filter (fun fileType => fileType &&& t ≠ 0)

/-- The `RemoveCopies` loop of `SealCalls.MoveStorage`. -/
def removeCopiesLoop (env : Env) (sector : SectorRef) : List SectorFileType → World →
    Except String Unit × World
  | [], w => (.ok (), w)
  | fileType :: rest, w =>
    let w1 := w.log (.removeCopies sector.ID fileType)
    match env.storageRemoveCopies sector.ID fileType with
    | some err =>
      (.error (wrapErr ("rm copies (t:" ++ toString fileType ++ ", s:" ++
        toString sector.ID.Number ++ ")") err), w1)
    | none => removeCopiesLoop env sector rest w1

/-- `SealCalls.MoveStorage`. -/
def MoveStorage (env : Env) (w : World) (sector : SectorRef) : Except String Unit × World :=
  match sectorStorageType env w sector FTUnsealed with
  | (.error err, w1) => (.error (wrapErr "checking cache storage type" err), w1)
  | (.ok (found, unsealedPathType), w1) =>
    let moveUnsealed := if !found || unsealedPathType == PathStorage then FTNone else FTUnsealed
    let toMove := FTCache ||| FTSealed ||| moveUnsealed
    let w2 := w1.log (.moveStorage sector toMove)
    match env.storageMoveStorage sector toMove with
    | some err => (.error (wrapErr "moving storage" err), w2)
    | none => removeCopiesLoop env sector (allSet env toMove) w2

/-! ## Reading traces -/

/-- Whether an event is an index declaration. -/
def Event.isDeclare : Event → Bool
  | .declareSector _ _ _ _ => true
  | _ => false

/-- Whether an event is an error written to the log. -/
def Event.isLogError : Event → Bool
  | .logError _ => true
  | _ => false

/-- The calls the release loop makes over the kinds `l`, in order. -/
def declareEvents (env : Env) (sector : SectorRef) (allocate : SectorFileType)
    (storageIDs : SectorPaths) : List SectorFileType → List Event
  | [] => []
  | fileType :: rest =>
    if fileType &&& allocate = 0 then declareEvents env sector allocate storageIDs rest
    else
      (Event.declareSector (env.PathByType storageIDs fileType) sector.ID fileType true ::
        (match env.storageDeclareSector (env.PathByType storageIDs fileType) sector.ID
            fileType true with
          | some err => [Event.logError ("declare sector error: " ++ err)]
          | none => [])) ++
        declareEvents env sector allocate storageIDs rest

/-- Whether an event belongs to the acquisition itself. -/
def Event.isAcquire : Event → Bool
  | .storageAcquire _ _ _ _ => true
  | .reserve _ _ _ => true
  | _ => false

/-- Whether a call returned an `error`. -/
def failed {α : Type} : Except String α → Bool
  | .error _ => true
  | .ok _ => false

/-- Whether a call ended in an `error` or a `panic`. -/
def Outcome.failed {α : Type} : Outcome α → Bool
  | .ok _ => false
  | .error _ => true
  | .panic _ => true

/-- The world `w'` is reached from `w` by calls none of which frees a
reservation. -/
def Steps (w w' : World) : Prop :=
  ∃ steps, w'.trace = w.trace ++ steps ∧ steps.count Event.releaseStorage = 0

/-- What scoped acquisition asks of a stage that starts in `w`, acquires
`(existing, allocate)` for sealing and ends in `w'`, having failed or not.
If the acquisition succeeded, `w'` is the release closure applied to the world
the later steps left, those steps free no reservation, and the calls made since
`w` free the reservation exactly once. If the acquisition failed, the stage
failed, `w'` is the world the acquisition left, the files are untouched and the
only calls made are those of the acquisition. -/
def ScopedRelease (env : Env) (w : World) (sector : SectorRef)
    (existing allocate : SectorFileType) (stageFailed : Bool) (w' : World) : Prop :=
  (∀ paths release w1,
      AcquireSector env w sector existing allocate PathSealing = (.ok (paths, release), w1) →
      (∃ wBody, w' = release wBody ∧ Steps w1 wBody) ∧
        (w'.trace.drop w.trace.length).count Event.releaseStorage = 1) ∧
  (∀ err w1,
      AcquireSector env w sector existing allocate PathSealing = (.error err, w1) →
      stageFailed = true ∧ w' = w1 ∧ w'.fs = w.fs ∧
        ∀ e ∈ w'.trace.drop w.trace.length, e.isAcquire = true)

/-- Whether an event is a rename, a truncation or a move of a file. -/
def Event.isFileOp : Event → Bool
  | .rename _ _ => true
  | .truncate _ _ => true
  | .move _ _ => true
  | _ => false

/-- The calls made between world `w` and the later world `w'`. -/
def World.since (w' w : World) : List Event := w'.trace.drop w.trace.length

/-- All steps of `FinalizeSector` before the clearing of the cache succeeded:
the store's acquisition gave `paths`, the reservation was granted, the sector
size is `ssize`, and with `keepUnsealed` the rename, the truncation and the move
each returned no error; `wk` is the world these steps left. -/
def EarlierStepsOk (env : Env) (w : World) (sector : SectorRef) (keepUnsealed : Bool)
    (paths : SectorPaths) (ssize : Nat) (wk : World) : Prop :=
  ∃ ids,
    env.storageAcquireSector sector FTCache (if keepUnsealed then FTUnsealed else FTNone)
      PathSealing = .ok (paths, ids) ∧
    env.localReserve sector (if keepUnsealed then FTUnsealed else FTNone) ids = .ok () ∧
    env.sectorSize sector.ProofType = .ok ssize ∧
    if keepUnsealed then
      ∃ w2 w3,
        osRename env
            ((w.log (.storageAcquire sector FTCache FTUnsealed PathSealing)).log
              (.reserve sector FTUnsealed ids))
            (filepathJoin paths.Cache env.TreeDName)
            (filepathJoin paths.Cache (env.SectorName sector.ID)) = (none, w2) ∧
        osTruncate env w2 (filepathJoin paths.Cache (env.SectorName sector.ID)) (int64 ssize) =
          (none, w3) ∧
        pathsMove env w3 (filepathJoin paths.Cache (env.SectorName sector.ID)) paths.Unsealed =
          (none, wk)
    else
      wk = (w.log (.storageAcquire sector FTCache FTNone PathSealing)).log
        (.reserve sector FTNone ids)

/-! ## A sample environment -/

/-- A small environment in which every collaborator succeeds: three artifact
kinds, fixed paths and location ids, four-byte sectors, a verifier that accepts,
and library calls that leave the files alone. -/
def sampleEnv : Env where
  PathTypes := [FTUnsealed, FTSealed, FTCache]
  PathByType := fun ids ft =>
    if ft = FTUnsealed then ids.Unsealed else if ft = FTSealed then ids.Sealed else ids.Cache
  SectorName := fun id => "s-t0" ++ toString id.Miner ++ "-" ++ toString id.Number
  TreeDName := "tree-d"
  storageAcquireSector := fun s _ _ _ =>
    .ok (⟨s.ID, "unsealed", "sealed", "cache"⟩, ⟨s.ID, "id-u", "id-s", "id-c"⟩)
  localReserve := fun _ _ _ => .ok ()
  storageDeclareSector := fun _ _ _ _ => none
  storageFindSector := fun _ _ => .ok []
  storageMoveStorage := fun _ _ => none
  storageRemoveCopies := fun _ _ => none
  generatePoRepVanillaProof := fun _ _ _ _ _ => .ok [1]
  cidToDataCommitmentV1 := fun c => if c.str.length = 32 then .ok c.str else .error "invalid"
  replicaId := fun _ _ _ _ _ => .ok [0]
  sectorSize := fun _ => .ok 4
  ffiGenerateSDR := fun fs _ _ _ => (none, fs)
  buildTreeD := fun fs _ _ _ _ => (.ok Cid.Undef, fs)
  ffiSealPreCommitPhase2 := fun fs _ _ _ => (.ok (Cid.Undef, Cid.Undef), fs)
  ffiSealCommitPhase2 := fun vproof _ _ => .ok (2 :: vproof)
  ffiVerifySeal := fun _ => .ok true
  ffiClearCache := fun fs _ _ => (none, fs)
  reflinkFault := fun _ _ => none
  truncateFault := fun _ _ => none
  openFileFault := fun _ => none
  openReadFault := fun _ => none
  copyFault := none
  closeFault := fun _ => none
  renameFault := fun _ _ => none
  moveFault := fun _ _ => none

/-- A sample sector of the 2KiB class. -/
def sampleSector : SectorRef := ⟨⟨1000, 1⟩, RegisteredSealProof_StackedDrg2KiBV1_1⟩

/-- A sample unsealed CID carrying a 32-byte commitment. -/
def sampleCid : Cid := ⟨List.replicate 32 7⟩

/-- A world with no files and an empty trace. -/
def emptyWorld : World := ⟨fun _ => none, []⟩

/-- A world whose cache holds an eight-byte tree file. -/
def treeWorld : World :=
  ⟨fun q => if q = "cache/tree-d" then some [1, 2, 3, 4, 5, 6, 7, 8] else none, []⟩

/-- The sample environment with an index that finds the unsealed file on two
locations, one that can seal and one that only stores. -/
def mixedEnv : Env :=
  { sampleEnv with
    storageFindSector := fun _ _ => .ok [⟨"seal-1", true, false⟩, ⟨"store-1", false, true⟩] }

/-- The sample environment on a file system without reflink support. -/
def noReflinkEnv : Env :=
  { sampleEnv with reflinkFault := fun _ _ => some "operation not supported" }

/-- The paths the sample environment hands out. -/
def samplePaths : SectorPaths := ⟨sampleSector.ID, "unsealed", "sealed", "cache"⟩

/-- A world whose cache holds an eight-byte tree file and whose sealed path
already holds a six-byte file. -/
def staleSealedWorld : World :=
  ⟨fun q =>
    if q = "cache/tree-d" then some [1, 2, 3, 4, 5, 6, 7, 8]
    else if q = "sealed" then some [9, 9, 9, 9, 9, 9]
    else none, []⟩

/-! ## Lemmas on the layout builder -/

theorem goCopy_full (dst src : List Nat) (h : src.length = dst.length) :
    goCopy dst src = src := by
  unfold goCopy
  rw [← h, List.take_length, h, List.drop_length, List.append_nil]

theorem fillCase_loop (group : String) (layerPath : String) (layerSize : Int) (n : Nat)
    (o : Phase1Output) (h : o.Labels = [(group, ⟨none, []⟩)]) :
    (List.range n).foldl
      (fun acc i =>
        { acc with
          Labels := mapAppendLabel acc.Labels group
            { ID := "layer-" ++ toString (i + 1)
              Path := layerPath
              RowsToDiscard := 0
              Size := layerSize } })
      o
    = { o with Labels := [(group, ⟨none, (List.range n).map (layerConfig layerPath layerSize)⟩)] } := by
  induction n with
  | zero => simp [← h]
  | succ k ih =>
    rw [List.range_succ, List.foldl_append, ih]
    simp [mapAppendLabel, layerConfig]

theorem fillCase_eq (o : Phase1Output) (h : o.Labels = []) (rootSize : Int)
    (group registered : String) (n : Nat) (layerPath : String) (layerSize : Int) :
    fillCase o rootSize group registered n layerPath layerSize =
      { CommD := o.CommD
        Config := { o.Config with RowsToDiscard := 0, Size := rootSize }
        Labels := [(group, ⟨none, (List.range n).map (layerConfig layerPath layerSize)⟩)]
        RegisteredProof := registered } := by
  unfold fillCase
  simp only
  rw [fillCase_loop]
  simp [h, mapSet]


theorem buildPhase1Output_of_table (commd : List Nat) (spt : RegisteredSealProof)
    (g : String) (n : Nat) (ls rs : Int) (hlen : commd.length = 32)
    (ht : geometryTable spt = some (g, n, ls, rs)) :
    ∃ path reg, buildPhase1Output commd spt =
      some { CommD := commd
             Config := ⟨"tree-d", "/placeholder", 0, rs⟩
             Labels := [(g, ⟨none, (List.range n).map (layerConfig path ls)⟩)]
             RegisteredProof := reg } ∧
      ((spt = RegisteredSealProof_StackedDrg2KiBV1_1 ∨
          spt = RegisteredSealProof_StackedDrg2KiBV1_1_Feat_SyntheticPoRep) →
        reg = "StackedDrg2KiBV1_1") := by
  have hc : goCopy (List.replicate 32 0) commd = commd :=
    goCopy_full _ _ (by simp [hlen])
  have hz : Phase1Output.zero.CommD = List.replicate 32 0 := rfl
  unfold geometryTable at ht
  unfold buildPhase1Output
  split_ifs at ht with h1 h2 h3 h4 <;>
    simp only [Option.some.injEq, Prod.mk.injEq] at ht <;>
    obtain ⟨rfl, rfl, rfl, rfl⟩ := ht
  · exact ⟨"/placeholder", "StackedDrg2KiBV1_1", by
      rw [if_pos h1, fillCase_eq _ rfl]; simp only [hz, hc], fun _ => rfl⟩
  · exact ⟨"placeholder", "StackedDrg512MiBV1_1", by
      rw [if_neg h1, if_pos h2, fillCase_eq _ rfl]; simp only [hz, hc],
      fun h => absurd h h1⟩
  · exact ⟨"/placeholder", "StackedDrg32GiBV1_1", by
      rw [if_neg h1, if_neg h2, if_pos h3, fillCase_eq _ rfl]
      simp only [hz, hc], fun h => absurd h h1⟩
  · exact ⟨"/placeholder", "StackedDrg64GiBV1_1", by
      rw [if_neg h1, if_neg h2, if_neg h3, if_pos h4, fillCase_eq _ rfl]
      simp only [hz, hc], fun h => absurd h h1⟩

theorem geometryTable_isSome_iff (spt : RegisteredSealProof) :
    (geometryTable spt).isSome = true ↔ Supported spt := by
  unfold geometryTable Supported
  split_ifs with h1 h2 h3 h4 <;> simp <;> tauto

theorem buildPhase1Output_isSome_iff (commd : List Nat) (spt : RegisteredSealProof) :
    (buildPhase1Output commd spt).isSome = true ↔ Supported spt := by
  unfold buildPhase1Output Supported
  split_ifs with h1 h2 h3 h4 <;> simp <;> tauto

/-! ## Reading back what was marshalled -/

theorem parseConfig_marshalConfig (c : Config) : parseConfig (marshalConfig c) = some c := by
  cases c
  simp [marshalConfig, parseConfig, Json.lookup, parseString, parseInt]

theorem parseConfigs_marshal (cs : List Config) :
    parseConfigs (cs.map marshalConfig) = some cs := by
  induction cs with
  | nil => rfl
  | cons c cs ih => simp [parseConfigs, parseConfig_marshalConfig, ih]

theorem parseLabels_marshalLabels (l : Labels) : parseLabels (marshalLabels l) = some l := by
  obtain ⟨h, ls⟩ := l
  cases h <;> cases ls <;>
    simp [marshalLabels, parseLabels, Json.lookup, parseConfigs, parseConfig_marshalConfig,
      parseConfigs_marshal]

theorem parseGroups_marshal (gs : List (String × Labels)) :
    parseGroups (gs.map (fun kv => (kv.1, marshalLabels kv.2))) = some gs := by
  induction gs with
  | nil => rfl
  | cons g gs ih => simp [parseGroups, parseLabels_marshalLabels, ih]

theorem parseBytes_marshal (bs : List Nat) (h : ∀ b ∈ bs, b < 256) :
    parseBytes (bs.map (fun (b : Nat) => Json.num (b : Int))) = some bs := by
  induction bs with
  | nil => rfl
  | cons b bs ih =>
    have hb : b < 256 := h b (List.mem_cons_self _ _)
    have hbs : ∀ x ∈ bs, x < 256 := fun x hx => h x (List.mem_cons_of_mem _ hx)
    have hb2 : ((b : Int) < 256) := by exact_mod_cast hb
    simp [parseBytes, parseByte, ih hbs, hb2]

theorem parsePhase1Output_marshal (o : Phase1Output) (h : ValidCommitment o.CommD) :
    parsePhase1Output (marshalPhase1Output o) = some o := by
  obtain ⟨commd, config, labels, rp⟩ := o
  obtain ⟨hlen, hb⟩ := h
  simp only at hlen hb
  simp [marshalPhase1Output, parsePhase1Output, Json.lookup, parseBytes_marshal _ hb,
    parseConfig_marshalConfig, parseGroups_marshal, parseString, hlen]


theorem makePhase1Out_ok_of_build (f : Cid → Except String (List Nat)) (unsCid : Cid)
    (commd : List Nat) (spt : RegisteredSealProof) (o : Phase1Output) (hc : f unsCid = .ok commd)
    (hb : buildPhase1Output commd spt = some o) :
    makePhase1Out f unsCid spt = .ok (marshalPhase1Output o) := by
  unfold makePhase1Out
  rw [hc]
  simp only [hb]

theorem validCommitment_sample : ValidCommitment sampleCid.str := by
  refine ⟨by simp [sampleCid], ?_⟩
  intro b hb
  simp only [sampleCid, List.mem_replicate] at hb
  omega

theorem geometryTable_shape (spt : RegisteredSealProof) (g : String) (n : Nat) (ls rs : Int)
    (ht : geometryTable spt = some (g, n, ls, rs)) :
    ∃ k : Nat, 0 < n ∧ ls = 2 ^ k ∧ rs = 2 * 2 ^ k - 1 ∧ (2 : Int) * 2 ^ k < 2 ^ 63 := by
  unfold geometryTable at ht
  split_ifs at ht with h1 h2 h3 h4 <;>
    simp only [Option.some.injEq, Prod.mk.injEq] at ht <;>
    obtain ⟨rfl, rfl, rfl, rfl⟩ := ht
  · exact ⟨6, by norm_num, by norm_num, by norm_num, by norm_num⟩
  · exact ⟨24, by norm_num, by norm_num, by norm_num, by norm_num⟩
  · exact ⟨30, by norm_num, by norm_num, by norm_num, by norm_num⟩
  · exact ⟨31, by norm_num, by norm_num, by norm_num, by norm_num⟩

theorem makePhase1Out_panic_of_unsupported (f : Cid → Except String (List Nat)) (unsCid : Cid)
    (commd : List Nat) (spt : RegisteredSealProof) (hc : f unsCid = .ok commd)
    (hs : ¬ Supported spt) : makePhase1Out f unsCid spt = .panic "proof type not handled" := by
  have hn : buildPhase1Output commd spt = none := by
    cases hb : buildPhase1Output commd spt with
    | none => rfl
    | some o =>
      exact absurd ((buildPhase1Output_isSome_iff commd spt).mp (by simp [hb])) hs
  unfold makePhase1Out
  rw [hc]
  simp only [hn]

/-! ## The layout builder: claims -/

/-- C1: for a valid 32-byte commitment and a supported class, `makePhase1Out`
returns a layout which, read back, has the commitment as `comm_d`, the root-tree
descriptor `tree-d` with `rows_to_discard` 0 and the root size of the table, and
exactly one layer group, named as in the table, holding `layer-1 .. layer-n` in
order with `rows_to_discard` 0 and the table's layer size; for both 2KiB classes
`registered_proof` is `StackedDrg2KiBV1_1`; and any other CID with the same
commitment gives the same layout. -/
theorem makePhase1Out_layout (f : Cid → Except String (List Nat)) (unsCid : Cid)
    (commd : List Nat) (spt : RegisteredSealProof)
    (hc : f unsCid = .ok commd) (hv : ValidCommitment commd) (hs : Supported spt) :
    ∃ g n ls rs j out,
      geometryTable spt = some (g, n, ls, rs) ∧
      makePhase1Out f unsCid spt = .ok j ∧
      parsePhase1Output j = some out ∧
      out.CommD = commd ∧
      out.Config.ID = "tree-d" ∧ out.Config.RowsToDiscard = 0 ∧ out.Config.Size = rs ∧
      out.Labels.map
          (fun kv => (kv.1, kv.2.Labels.map (fun c => (c.ID, c.RowsToDiscard, c.Size)))) =
        [(g, (List.range n).map (fun i => ("layer-" ++ toString (i + 1), (0 : Int), ls)))] ∧
      ((spt = RegisteredSealProof_StackedDrg2KiBV1_1 ∨
          spt = RegisteredSealProof_StackedDrg2KiBV1_1_Feat_SyntheticPoRep) →
        out.RegisteredProof = "StackedDrg2KiBV1_1") ∧
      (∀ unsCid', f unsCid' = .ok commd → makePhase1Out f unsCid' spt = .ok j) := by
  have hsome := (geometryTable_isSome_iff spt).mpr hs
  obtain ⟨⟨g, n, ls, rs⟩, ht⟩ := Option.isSome_iff_exists.mp hsome
  obtain ⟨path, reg, hb, hreg⟩ := buildPhase1Output_of_table commd spt g n ls rs hv.1 ht
  refine ⟨g, n, ls, rs, _, _, ht, makePhase1Out_ok_of_build f unsCid commd spt _ hc hb,
    parsePhase1Output_marshal _ hv, rfl, rfl, rfl, rfl, ?_, hreg, ?_⟩
  · simp [layerConfig, Function.comp_def]
  · intro unsCid' hc'
    exact makePhase1Out_ok_of_build f unsCid' commd spt _ hc' hb

/-- Witness of C1 at the sample CID and the 2KiB class. -/
theorem makePhase1Out_layout_witness :
    ∃ g n ls rs j out,
      geometryTable RegisteredSealProof_StackedDrg2KiBV1_1 = some (g, n, ls, rs) ∧
      makePhase1Out sampleEnv.cidToDataCommitmentV1 sampleCid
        RegisteredSealProof_StackedDrg2KiBV1_1 = .ok j ∧
      parsePhase1Output j = some out ∧
      out.CommD = sampleCid.str ∧
      out.Config.ID = "tree-d" ∧ out.Config.RowsToDiscard = 0 ∧ out.Config.Size = rs ∧
      out.Labels.map
          (fun kv => (kv.1, kv.2.Labels.map (fun c => (c.ID, c.RowsToDiscard, c.Size)))) =
        [(g, (List.range n).map (fun i => ("layer-" ++ toString (i + 1), (0 : Int), ls)))] ∧
      ((RegisteredSealProof_StackedDrg2KiBV1_1 = RegisteredSealProof_StackedDrg2KiBV1_1 ∨
          RegisteredSealProof_StackedDrg2KiBV1_1 =
            RegisteredSealProof_StackedDrg2KiBV1_1_Feat_SyntheticPoRep) →
        out.RegisteredProof = "StackedDrg2KiBV1_1") ∧
      (∀ unsCid', sampleEnv.cidToDataCommitmentV1 unsCid' = .ok sampleCid.str →
        makePhase1Out sampleEnv.cidToDataCommitmentV1 unsCid'
          RegisteredSealProof_StackedDrg2KiBV1_1 = .ok j) :=
  makePhase1Out_layout sampleEnv.cidToDataCommitmentV1 sampleCid sampleCid.str
    RegisteredSealProof_StackedDrg2KiBV1_1 rfl validCommitment_sample (Or.inl rfl)


/-- C9: for a supported class the geometry of the layout is consistent: there
is a `k` with every layer of the (non-empty) group of size `2 ^ k`, the root-tree
size equal to `2 * 2 ^ k - 1`, and `2 * 2 ^ k` below `2 ^ 63`, so that no
64-bit integer overflows. -/
theorem makePhase1Out_geometry (f : Cid → Except String (List Nat)) (unsCid : Cid)
    (commd : List Nat) (spt : RegisteredSealProof)
    (hc : f unsCid = .ok commd) (hv : ValidCommitment commd) (hs : Supported spt) :
    ∃ j out, ∃ k : Nat,
      makePhase1Out f unsCid spt = .ok j ∧
      parsePhase1Output j = some out ∧
      out.Labels ≠ [] ∧
      (∀ kv ∈ out.Labels, kv.2.Labels ≠ [] ∧ ∀ c ∈ kv.2.Labels, c.Size = 2 ^ k) ∧
      out.Config.Size = 2 * 2 ^ k - 1 ∧
      (2 : Int) * 2 ^ k < 2 ^ 63 := by
  have hsome := (geometryTable_isSome_iff spt).mpr hs
  obtain ⟨⟨g, n, ls, rs⟩, ht⟩ := Option.isSome_iff_exists.mp hsome
  obtain ⟨k, hn, hls, hrs, hk⟩ := geometryTable_shape spt g n ls rs ht
  obtain ⟨path, reg, hb, -⟩ := buildPhase1Output_of_table commd spt g n ls rs hv.1 ht
  refine ⟨_, _, k, makePhase1Out_ok_of_build f unsCid commd spt _ hc hb,
    parsePhase1Output_marshal _ hv, by simp, ?_, hrs, hk⟩
  intro kv hkv
  simp only [List.mem_singleton] at hkv
  subst hkv
  refine ⟨?_, ?_⟩
  · simp only [ne_eq, List.map_eq_nil_iff, List.range_eq_nil]
    omega
  · intro c hcm
    simp only [List.mem_map] at hcm
    obtain ⟨i, -, rfl⟩ := hcm
    exact hls

/-- Witness of C9 at the sample CID and the 64GiB class. -/
theorem makePhase1Out_geometry_witness :
    ∃ j out, ∃ k : Nat,
      makePhase1Out sampleEnv.cidToDataCommitmentV1 sampleCid
        RegisteredSealProof_StackedDrg64GiBV1_1 = .ok j ∧
      parsePhase1Output j = some out ∧
      out.Labels ≠ [] ∧
      (∀ kv ∈ out.Labels, kv.2.Labels ≠ [] ∧ ∀ c ∈ kv.2.Labels, c.Size = 2 ^ k) ∧
      out.Config.Size = 2 * 2 ^ k - 1 ∧
      (2 : Int) * 2 ^ k < 2 ^ 63 :=
  makePhase1Out_geometry sampleEnv.cidToDataCommitmentV1 sampleCid sampleCid.str
    RegisteredSealProof_StackedDrg64GiBV1_1 rfl validCommitment_sample
    (Or.inr (Or.inr (Or.inr (Or.inr rfl))))

/-- C10, the code at the 512MiB class: the root-tree descriptor carries the
path `/placeholder` while both layer descriptors carry `placeholder`, without
the leading slash. -/
theorem makePhase1Out_512MiB_layer_paths :
    ∃ j out,
      makePhase1Out sampleEnv.cidToDataCommitmentV1 sampleCid
        RegisteredSealProof_StackedDrg512MiBV1_1 = .ok j ∧
      parsePhase1Output j = some out ∧
      out.Config.Path = "/placeholder" ∧
      out.Labels.map (fun kv => kv.2.Labels.map (fun c => c.Path)) =
        [["placeholder", "placeholder"]] := by
  have hb : buildPhase1Output sampleCid.str RegisteredSealProof_StackedDrg512MiBV1_1 =
      some { CommD := sampleCid.str
             Config := ⟨"tree-d", "/placeholder", 0, 33554431⟩
             Labels := [("StackedDrg512MiBV1",
               ⟨none, [⟨"layer-1", "placeholder", 0, 16777216⟩,
                       ⟨"layer-2", "placeholder", 0, 16777216⟩]⟩)]
             RegisteredProof := "StackedDrg512MiBV1_1" } := by
    decide
  exact ⟨_, _, makePhase1Out_ok_of_build _ _ _ _ _ rfl hb,
    parsePhase1Output_marshal _ validCommitment_sample, rfl, rfl⟩

/-- C2: when the commitment decodes, `makePhase1Out` returns a layout exactly
for the five supported classes; for any other class it panics with
`proof type not handled`, and so does `TreeRC`, which then leaves the world as it
found it: no storage was acquired and no call was made. -/
theorem makePhase1Out_ok_iff_supported (env : Env) (w : World) (sector : SectorRef)
    (unsealed : Cid) (commd : List Nat)
    (hc : env.cidToDataCommitmentV1 unsealed = .ok commd) :
    ((∃ j, makePhase1Out env.cidToDataCommitmentV1 unsealed sector.ProofType = .ok j) ↔
        Supported sector.ProofType) ∧
      (¬ Supported sector.ProofType →
        makePhase1Out env.cidToDataCommitmentV1 unsealed sector.ProofType =
            .panic "proof type not handled" ∧
          TreeRC env w sector unsealed = (.panic "proof type not handled", w)) := by
  refine ⟨⟨?_, ?_⟩, ?_⟩
  · rintro ⟨j, hj⟩
    by_contra hs
    rw [makePhase1Out_panic_of_unsupported _ _ _ _ hc hs] at hj
    exact Outcome.noConfusion hj
  · intro hs
    obtain ⟨o, ho⟩ := Option.isSome_iff_exists.mp
      ((buildPhase1Output_isSome_iff commd sector.ProofType).mpr hs)
    exact ⟨_, makePhase1Out_ok_of_build _ _ _ _ _ hc ho⟩
  · intro hs
    have hp := makePhase1Out_panic_of_unsupported _ _ _ _ hc hs
    refine ⟨hp, ?_⟩
    unfold TreeRC
    rw [hp]

/-- Witness of C2: the 32GiB class of the first proof version (number 3) is not
supported, and `TreeRC` on it panics in the empty world without touching it. -/
theorem makePhase1Out_ok_iff_supported_witness :
    ¬ Supported (3 : RegisteredSealProof) ∧
      TreeRC sampleEnv emptyWorld ⟨⟨1000, 1⟩, 3⟩ sampleCid =
        (.panic "proof type not handled", emptyWorld) :=
  ⟨by decide,
    ((makePhase1Out_ok_iff_supported sampleEnv emptyWorld ⟨⟨1000, 1⟩, 3⟩ sampleCid
      sampleCid.str rfl).2 (by decide)).2⟩

/-! ## Proof generation: claims -/

/-- C4: `PoRepSnark` returns proof bytes exactly when the vanilla proof was
generated, `SealCommitPhase2` produced those bytes, and `VerifySeal`, called on
those bytes with the caller's proof class, sector id, ticket, seed, sealed and
unsealed commitments, returned true without error; when `VerifySeal` returns
false without error the result is the error `porep failed to validate`. -/
theorem PoRepSnark_ok_iff (env : Env) (sn : SectorRef) (sealed unsealed : Cid)
    (ticket seed : List Nat) :
    (∀ proof, PoRepSnark env sn sealed unsealed ticket seed = .ok proof ↔
      ∃ vproof,
        env.generatePoRepVanillaProof sn sealed unsealed ticket seed = .ok vproof ∧
        env.ffiSealCommitPhase2 vproof sn.ID.Number sn.ID.Miner = .ok proof ∧
        env.ffiVerifySeal ⟨sn.ProofType, sn.ID, [], ticket, seed, proof, sealed, unsealed⟩ =
          .ok true) ∧
    (∀ vproof proof,
      env.generatePoRepVanillaProof sn sealed unsealed ticket seed = .ok vproof →
      env.ffiSealCommitPhase2 vproof sn.ID.Number sn.ID.Miner = .ok proof →
      env.ffiVerifySeal ⟨sn.ProofType, sn.ID, [], ticket, seed, proof, sealed, unsealed⟩ =
        .ok false →
      PoRepSnark env sn sealed unsealed ticket seed = .error "porep failed to validate") := by
  refine ⟨fun proof => ⟨?_, ?_⟩, ?_⟩
  · intro h
    unfold PoRepSnark at h
    cases hv : env.generatePoRepVanillaProof sn sealed unsealed ticket seed with
    | error e => simp [hv] at h
    | ok vproof =>
      cases hp : env.ffiSealCommitPhase2 vproof sn.ID.Number sn.ID.Miner with
      | error e => simp [hv, hp] at h
      | ok proof' =>
        cases hok : env.ffiVerifySeal
            ⟨sn.ProofType, sn.ID, [], ticket, seed, proof', sealed, unsealed⟩ with
        | error e => simp [hv, hp, hok] at h
        | ok b =>
          cases b with
          | false => simp [hv, hp, hok] at h
          | true =>
            simp [hv, hp, hok] at h
            subst h
            exact ⟨vproof, rfl, hp, hok⟩
  · rintro ⟨vproof, hv, hp, hok⟩
    unfold PoRepSnark
    simp [hv, hp, hok]
  · intro vproof proof hv hp hok
    unfold PoRepSnark
    simp [hv, hp, hok]


/-! ## The release closure -/

theorem releaseLoop_fs (env : Env) (sector : SectorRef) (allocate : SectorFileType)
    (ids : SectorPaths) (l : List SectorFileType) (w : World) :
    (releaseLoop env sector allocate ids l w).fs = w.fs := by
  induction l generalizing w with
  | nil => rfl
  | cons ft rest ih =>
    unfold releaseLoop
    split_ifs with h
    · exact ih w
    · cases hd : env.storageDeclareSector (env.PathByType ids ft) sector.ID ft true with
      | none => simp only [hd, ih, World.log]
      | some err => simp only [hd, ih, World.log]

theorem releaseLoop_trace (env : Env) (sector : SectorRef) (allocate : SectorFileType)
    (ids : SectorPaths) (l : List SectorFileType) (w : World) :
    (releaseLoop env sector allocate ids l w).trace =
      w.trace ++ declareEvents env sector allocate ids l := by
  induction l generalizing w with
  | nil => simp [releaseLoop, declareEvents]
  | cons ft rest ih =>
    unfold releaseLoop declareEvents
    split_ifs with h
    · exact ih w
    · cases hd : env.storageDeclareSector (env.PathByType ids ft) sector.ID ft true with
      | none => simp [hd, ih, World.log]
      | some err => simp [hd, ih, World.log]

theorem declareEvents_filter (env : Env) (sector : SectorRef) (allocate : SectorFileType)
    (ids : SectorPaths) (l : List SectorFileType) :
    (declareEvents env sector allocate ids l).filter Event.isDeclare =
      (l.filter (fun ft => ft &&& allocate ≠ 0)).map
        (fun ft => Event.declareSector (env.PathByType ids ft) sector.ID ft true) := by
  induction l with
  | nil => rfl
  | cons ft rest ih =>
    unfold declareEvents
    split_ifs with h
    · simp [ih, h]
    · cases hd : env.storageDeclareSector (env.PathByType ids ft) sector.ID ft true with
      | none => simp [ih, h, Event.isDeclare]
      | some err => simp [ih, h, Event.isDeclare]

theorem declareEvents_kinds (env : Env) (sector : SectorRef) (allocate : SectorFileType)
    (ids : SectorPaths) (l : List SectorFileType) :
    ∀ e ∈ declareEvents env sector allocate ids l, e.isDeclare = true ∨ e.isLogError = true := by
  induction l with
  | nil => simp [declareEvents]
  | cons ft rest ih =>
    unfold declareEvents
    split_ifs with h
    · exact ih
    · cases hd : env.storageDeclareSector (env.PathByType ids ft) sector.ID ft true with
      | none =>
        intro e he
        simp at he
        rcases he with rfl | he
        · exact Or.inl rfl
        · exact ih e he
      | some err =>
        intro e he
        simp at he
        rcases he with rfl | rfl | he
        · exact Or.inl rfl
        · exact Or.inr rfl
        · exact ih e he

theorem declareEvents_no_release (env : Env) (sector : SectorRef) (allocate : SectorFileType)
    (ids : SectorPaths) (l : List SectorFileType) :
    (declareEvents env sector allocate ids l).count Event.releaseStorage = 0 := by
  rw [List.count_eq_zero]
  intro hmem
  rcases declareEvents_kinds env sector allocate ids l _ hmem with h | h <;>
    simp [Event.isDeclare, Event.isLogError] at h

theorem declareEvents_count (env : Env) (sector : SectorRef) (allocate : SectorFileType)
    (ids : SectorPaths) (l : List SectorFileType) (hnd : l.Nodup) (ft : SectorFileType)
    (sid : String) :
    (declareEvents env sector allocate ids l).count
        (Event.declareSector sid sector.ID ft true) =
      if ft ∈ l ∧ ft &&& allocate ≠ 0 ∧ sid = env.PathByType ids ft then 1 else 0 := by
  have hfilter := declareEvents_filter env sector allocate ids l
  have hc : (declareEvents env sector allocate ids l).count
        (Event.declareSector sid sector.ID ft true) =
      ((declareEvents env sector allocate ids l).filter Event.isDeclare).count
        (Event.declareSector sid sector.ID ft true) := by
    rw [List.count_filter]
    rfl
  rw [hc, hfilter]
  split_ifs with h
  · obtain ⟨hm, ha, rfl⟩ := h
    have hmem : ft ∈ l.filter (fun ft => ft &&& allocate ≠ 0) := by
      simp [List.mem_filter, hm, ha]
    have hnd2 : (l.filter (fun ft => ft &&& allocate ≠ 0)).Nodup := hnd.filter _
    have hinj : Function.Injective
        (fun ft => Event.declareSector (env.PathByType ids ft) sector.ID ft true) := by
      intro a b hab
      simp only [Event.declareSector.injEq] at hab
      exact hab.2.2.1
    rw [List.count_map_of_injective _ _ hinj]
    exact List.count_eq_one_of_mem hnd2 hmem
  · rw [List.count_eq_zero]
    intro hmem
    simp only [List.mem_map, List.mem_filter, Event.declareSector.injEq] at hmem
    obtain ⟨a, ⟨ha1, ha2⟩, hs, -, rfl, -⟩ := hmem
    exact h ⟨ha1, by simpa using ha2, hs.symm⟩


theorem AcquireSector_ok (env : Env) (w : World) (sector : SectorRef)
    (existing allocate : SectorFileType) (sealing : PathType) (paths ids : SectorPaths)
    (hacq : env.storageAcquireSector sector existing allocate sealing = .ok (paths, ids))
    (hres : env.localReserve sector allocate ids = .ok ()) :
    AcquireSector env w sector existing allocate sealing =
      (.ok (paths, releaseFunc env sector allocate ids),
        (w.log (.storageAcquire sector existing allocate sealing)).log
          (.reserve sector allocate ids)) := by
  unfold AcquireSector
  simp only [hacq, hres]

theorem AcquireSector_acquire_error (env : Env) (w : World) (sector : SectorRef)
    (existing allocate : SectorFileType) (sealing : PathType) (err : String)
    (hacq : env.storageAcquireSector sector existing allocate sealing = .error err) :
    AcquireSector env w sector existing allocate sealing =
      (.error err, w.log (.storageAcquire sector existing allocate sealing)) := by
  unfold AcquireSector
  simp only [hacq]

theorem AcquireSector_reserve_error (env : Env) (w : World) (sector : SectorRef)
    (existing allocate : SectorFileType) (sealing : PathType) (paths ids : SectorPaths)
    (err : String)
    (hacq : env.storageAcquireSector sector existing allocate sealing = .ok (paths, ids))
    (hres : env.localReserve sector allocate ids = .error err) :
    AcquireSector env w sector existing allocate sealing =
      (.error (wrapErr "reserving storage space" err),
        (w.log (.storageAcquire sector existing allocate sealing)).log
          (.reserve sector allocate ids)) := by
  unfold AcquireSector
  simp only [hacq, hres]

theorem releaseFunc_fs (env : Env) (sector : SectorRef) (allocate : SectorFileType)
    (ids : SectorPaths) (w : World) : (releaseFunc env sector allocate ids w).fs = w.fs := by
  unfold releaseFunc
  rw [releaseLoop_fs]
  rfl

theorem releaseFunc_trace (env : Env) (sector : SectorRef) (allocate : SectorFileType)
    (ids : SectorPaths) (w : World) :
    (releaseFunc env sector allocate ids w).trace =
      w.trace ++ Event.releaseStorage :: declareEvents env sector allocate ids env.PathTypes := by
  unfold releaseFunc
  rw [releaseLoop_trace]
  simp [World.log]

/-- C6: when the store's acquisition and the reservation succeed,
`AcquireSector` returns a release closure which, run in any world, leaves the
files alone, first frees the reservation (once), and then only declares and
logs: its declarations are, in the order of `PathTypes`, one per kind of
`PathTypes` that is in `allocate`, each against `PathByType storageIDs kind` with
the sector's id, whatever each declaration returns; so a declaration of a kind
occurs once if the kind is in `allocate` and never otherwise. When the
acquisition or the reservation fails, `AcquireSector` returns the error. -/
theorem AcquireSector_release (env : Env) (w : World) (sector : SectorRef)
    (existing allocate : SectorFileType) (sealing : PathType) (hnd : env.PathTypes.Nodup) :
    (∀ paths ids,
      env.storageAcquireSector sector existing allocate sealing = .ok (paths, ids) →
      env.localReserve sector allocate ids = .ok () →
      ∃ release w1,
        AcquireSector env w sector existing allocate sealing = (.ok (paths, release), w1) ∧
        ∀ w2, (release w2).fs = w2.fs ∧
          ∃ evs, (release w2).trace = w2.trace ++ Event.releaseStorage :: evs ∧
            evs.count Event.releaseStorage = 0 ∧
            (∀ e ∈ evs, e.isDeclare = true ∨ e.isLogError = true) ∧
            evs.filter Event.isDeclare =
              (env.PathTypes.filter (fun ft => ft &&& allocate ≠ 0)).map
                (fun ft => Event.declareSector (env.PathByType ids ft) sector.ID ft true) ∧
            ∀ ft sid, evs.count (Event.declareSector sid sector.ID ft true) =
              if ft ∈ env.PathTypes ∧ ft &&& allocate ≠ 0 ∧ sid = env.PathByType ids ft
              then 1 else 0) ∧
    (∀ err, env.storageAcquireSector sector existing allocate sealing = .error err →
      ∃ w1, AcquireSector env w sector existing allocate sealing = (.error err, w1)) ∧
    (∀ paths ids err,
      env.storageAcquireSector sector existing allocate sealing = .ok (paths, ids) →
      env.localReserve sector allocate ids = .error err →
      ∃ w1, AcquireSector env w sector existing allocate sealing =
        (.error (wrapErr "reserving storage space" err), w1)) := by
  refine ⟨?_, ?_, ?_⟩
  · intro paths ids hacq hres
    refine ⟨releaseFunc env sector allocate ids, _,
      AcquireSector_ok env w sector existing allocate sealing paths ids hacq hres, ?_⟩
    intro w2
    exact ⟨releaseFunc_fs _ _ _ _ _, declareEvents env sector allocate ids env.PathTypes,
      releaseFunc_trace _ _ _ _ _, declareEvents_no_release _ _ _ _ _,
      declareEvents_kinds _ _ _ _ _, declareEvents_filter _ _ _ _ _,
      declareEvents_count _ _ _ _ _ hnd⟩
  · intro err hacq
    exact ⟨_, AcquireSector_acquire_error env w sector existing allocate sealing err hacq⟩
  · intro paths ids err hacq hres
    exact ⟨_, AcquireSector_reserve_error env w sector existing allocate sealing paths ids err
      hacq hres⟩

/-- Witness of C6: in the sample environment, acquiring with `allocate` the
Sealed kind gives a release closure that, run in the empty world, frees the
reservation once and declares the sealed file once, against its location id. -/
theorem AcquireSector_release_witness :
    sampleEnv.PathTypes.Nodup ∧
    ∃ release w1,
      AcquireSector sampleEnv emptyWorld sampleSector FTCache FTSealed PathSealing =
        (.ok (⟨sampleSector.ID, "unsealed", "sealed", "cache"⟩, release), w1) ∧
      (release emptyWorld).trace.count Event.releaseStorage = 1 ∧
      (release emptyWorld).trace.count
        (Event.declareSector "id-s" sampleSector.ID FTSealed true) = 1 := by
  have hnd : sampleEnv.PathTypes.Nodup := by decide
  refine ⟨hnd, ?_⟩
  obtain ⟨release, w1, hacq, hrel⟩ :=
    (AcquireSector_release sampleEnv emptyWorld sampleSector FTCache FTSealed PathSealing hnd).1
      ⟨sampleSector.ID, "unsealed", "sealed", "cache"⟩ ⟨sampleSector.ID, "id-u", "id-s", "id-c"⟩
      rfl rfl
  refine ⟨release, w1, hacq, ?_⟩
  obtain ⟨-, evs, htrace, hnone, -, -, hcount⟩ := hrel emptyWorld
  rw [htrace]
  refine ⟨?_, ?_⟩
  · simp [emptyWorld, hnone]
  · have h := hcount FTSealed "id-s"
    rw [if_pos (by decide)] at h
    simp [emptyWorld, h]


/-! ## Traces of the file-system calls and of the stage bodies -/

theorem Steps.refl (w : World) : Steps w w := ⟨[], by simp, rfl⟩

theorem Steps.trans {a b c : World} (h1 : Steps a b) (h2 : Steps b c) : Steps a c := by
  obtain ⟨s1, e1, c1⟩ := h1
  obtain ⟨s2, e2, c2⟩ := h2
  exact ⟨s1 ++ s2, by rw [e2, e1, List.append_assoc], by rw [List.count_append, c1, c2]⟩

theorem Steps.of_trace {w w' : World} {e : Event} (h : w'.trace = w.trace ++ [e])
    (he : e ≠ Event.releaseStorage) : Steps w w' :=
  ⟨[e], h, by
    rw [List.count_eq_zero]
    intro hm
    exact he (List.mem_singleton.mp hm).symm⟩

theorem Steps.of_trace_eq {w w' : World} (h : w'.trace = w.trace) : Steps w w' :=
  ⟨[], by simp [h], rfl⟩

theorem reflinkAlways_trace (env : Env) (w : World) (src dst : String) :
    (reflinkAlways env w src dst).2.trace = w.trace ++ [Event.reflink src dst] := by
  unfold reflinkAlways
  dsimp only
  repeat' split
  all_goals rfl

theorem osTruncate_trace (env : Env) (w : World) (path : String) (size : Int) :
    (osTruncate env w path size).2.trace = w.trace ++ [Event.truncate path size] := by
  unfold osTruncate
  dsimp only
  repeat' split
  all_goals rfl

theorem osOpenFile_trace (env : Env) (w : World) (path : String) :
    (osOpenFile env w path).2.trace = w.trace ++ [Event.openFile path] := by
  unfold osOpenFile
  dsimp only
  repeat' split
  all_goals rfl

theorem osOpen_trace (env : Env) (w : World) (path : String) :
    (osOpen env w path).2.trace = w.trace ++ [Event.openRead path] := by
  unfold osOpen
  dsimp only
  repeat' split
  all_goals rfl

theorem ioCopyN_trace (env : Env) (w : World) (dst src : String) (n : Int) :
    (ioCopyN env w dst src n).2.trace = w.trace ++ [Event.copyN n] := by
  unfold ioCopyN
  dsimp only
  repeat' split
  all_goals rfl

theorem osClose_trace (env : Env) (w : World) (path : String) :
    (osClose env w path).2.trace = w.trace ++ [Event.closeFile path] := rfl

theorem osRename_trace (env : Env) (w : World) (src dst : String) :
    (osRename env w src dst).2.trace = w.trace ++ [Event.rename src dst] := by
  unfold osRename
  dsimp only
  repeat' split
  all_goals rfl

theorem pathsMove_trace (env : Env) (w : World) (src dst : String) :
    (pathsMove env w src dst).2.trace = w.trace ++ [Event.move src dst] := by
  unfold pathsMove
  dsimp only
  repeat' split
  all_goals rfl

theorem generateSDRBody_steps (env : Env) (sector : SectorRef) (ticket : List Nat)
    (commKcid : Cid) (paths : SectorPaths) (w : World) :
    Steps w (generateSDRBody env sector ticket commKcid paths w).2 := by
  unfold generateSDRBody
  split
  · exact Steps.refl _
  · split
    · exact Steps.refl _
    · dsimp only
      split <;> exact Steps.of_trace rfl (by simp)

theorem treeDBody_steps (env : Env) (size : Nat) (data : List Nat) (unpaddedData : Bool)
    (paths : SectorPaths) (w : World) :
    Steps w (treeDBody env size data unpaddedData paths w).2 :=
  @Steps.of_trace _ _ (Event.buildTreeD (filepathJoin paths.Cache env.TreeDName) size) rfl
    (by simp)


theorem Steps.of_pair {α : Type} {w w1 : World} {p : α × World} {r : α} {e : Event}
    (h : p = (r, w1)) (ht : p.2.trace = w.trace ++ [e]) (he : e ≠ Event.releaseStorage) :
    Steps w w1 := by
  subst h
  exact Steps.of_trace ht he

theorem Steps.log {w w' : World} (h : Steps w w') (e : Event)
    (he : e ≠ Event.releaseStorage) : Steps w (w'.log e) :=
  h.trans (Steps.of_trace rfl he)

theorem copyTreeDToSealed_steps (env : Env) (paths : SectorPaths) (ssize : Nat) (w : World) :
    Steps w (copyTreeDToSealed env paths ssize w).2 := by
  unfold copyTreeDToSealed
  dsimp only
  split
  · rename_i w1 h1
    have s1 : Steps w w1 := Steps.of_pair h1 (reflinkAlways_trace _ _ _ _) (by simp)
    split
    · rename_i err w2 h2
      exact s1.trans (Steps.of_pair h2 (osTruncate_trace _ _ _ _) (by simp))
    · rename_i w2 h2
      exact s1.trans (Steps.of_pair h2 (osTruncate_trace _ _ _ _) (by simp))
  · rename_i err w1 h1
    have s1 : Steps w w1 := Steps.of_pair h1 (reflinkAlways_trace _ _ _ _) (by simp)
    have s2 := s1.log (Event.logError "reflink treed -> sealed failed, falling back to slow copy, use single scratch btrfs or xfs filesystem") (by simp)
    split
    · rename_i err3 w3 h3
      exact s2.trans (Steps.of_pair h3 (osOpenFile_trace _ _ _) (by simp))
    · rename_i w3 h3
      have s3 := s2.trans (Steps.of_pair h3 (osOpenFile_trace _ _ _) (by simp))
      split
      · rename_i err4 w4 h4
        exact s3.trans (Steps.of_pair h4 (osOpen_trace _ _ _) (by simp))
      · rename_i w4 h4
        have s4 := s3.trans (Steps.of_pair h4 (osOpen_trace _ _ _) (by simp))
        have s5 := s4.trans (Steps.of_trace (ioCopyN_trace env w4 paths.Sealed
          (filepathJoin paths.Cache env.TreeDName) (int64 ssize)) (by simp))
        have s6 := s5.trans (Steps.of_trace (osClose_trace env
          (ioCopyN env w4 paths.Sealed (filepathJoin paths.Cache env.TreeDName)
            (int64 ssize)).2 paths.Sealed) (by simp))
        have s7 := s6.log (Event.closeFile (filepathJoin paths.Cache env.TreeDName)) (by simp)
        repeat' split
        all_goals exact s7

theorem treeRCBody_steps (env : Env) (sector : SectorRef) (p1o : Json) (paths : SectorPaths)
    (w : World) : Steps w (treeRCBody env sector p1o paths w).2 := by
  unfold treeRCBody
  split
  · exact Steps.refl _
  · rename_i ssize hs
    have s1 := copyTreeDToSealed_steps env paths ssize w
    split
    · rename_i err w1 h1
      rw [h1] at s1
      exact s1
    · rename_i w1 h1
      rw [h1] at s1
      exact s1.trans (@Steps.of_trace _ _ (Event.sealPreCommitPhase2 paths.Cache paths.Sealed)
        rfl (by simp))

theorem keepUnsealedStep_steps (env : Env) (sector : SectorRef) (paths : SectorPaths)
    (ssize : Nat) (w : World) : Steps w (keepUnsealedStep env sector paths ssize w).2 := by
  unfold keepUnsealedStep
  dsimp only
  split
  · rename_i err w1 h1
    exact Steps.of_pair h1 (osRename_trace _ _ _ _) (by simp)
  · rename_i w1 h1
    have s1 : Steps w w1 := Steps.of_pair h1 (osRename_trace _ _ _ _) (by simp)
    split
    · rename_i err w2 h2
      exact s1.trans (Steps.of_pair h2 (osTruncate_trace _ _ _ _) (by simp))
    · rename_i w2 h2
      have s2 := s1.trans (Steps.of_pair h2 (osTruncate_trace _ _ _ _) (by simp))
      split
      · rename_i err w3 h3
        exact s2.trans (Steps.of_pair h3 (pathsMove_trace _ _ _ _) (by simp))
      · rename_i w3 h3
        exact s2.trans (Steps.of_pair h3 (pathsMove_trace _ _ _ _) (by simp))

theorem clearCacheStep_steps (env : Env) (paths : SectorPaths) (ssize : Nat) (w : World) :
    Steps w (clearCacheStep env paths ssize w).2 := by
  unfold clearCacheStep
  dsimp only
  split <;> exact Steps.of_trace rfl (by simp)

theorem finalizeSectorBody_steps (env : Env) (sector : SectorRef) (keepUnsealed : Bool)
    (paths : SectorPaths) (w : World) :
    Steps w (finalizeSectorBody env sector keepUnsealed paths w).2 := by
  unfold finalizeSectorBody
  split
  · exact Steps.refl _
  · rename_i ssize hs
    split
    · have s1 := keepUnsealedStep_steps env sector paths ssize w
      split
      · rename_i err w1 h1
        rw [h1] at s1
        exact s1
      · rename_i w1 h1
        rw [h1] at s1
        exact s1.trans (clearCacheStep_steps env paths ssize w1)
    · exact clearCacheStep_steps env paths ssize w


/-! ## Scoped acquisition -/

theorem AcquireSector_ok_inv (env : Env) (w w1 : World) (sector : SectorRef)
    (existing allocate : SectorFileType) (sealing : PathType) (paths : SectorPaths)
    (release : World → World)
    (h : AcquireSector env w sector existing allocate sealing = (.ok (paths, release), w1)) :
    ∃ ids, release = releaseFunc env sector allocate ids ∧
      w1.trace = w.trace ++ [Event.storageAcquire sector existing allocate sealing,
        Event.reserve sector allocate ids] := by
  unfold AcquireSector at h
  dsimp only at h
  split at h
  · simp at h
  · rename_i p ids hacq
    split at h
    · simp at h
    · simp only [Prod.mk.injEq, Except.ok.injEq] at h
      obtain ⟨⟨-, rfl⟩, rfl⟩ := h
      exact ⟨ids, rfl, by simp [World.log]⟩

theorem AcquireSector_error_inv (env : Env) (w w1 : World) (sector : SectorRef)
    (existing allocate : SectorFileType) (sealing : PathType) (err : String)
    (h : AcquireSector env w sector existing allocate sealing = (.error err, w1)) :
    w1.fs = w.fs ∧ ∃ evs, w1.trace = w.trace ++ evs ∧ ∀ e ∈ evs, e.isAcquire = true := by
  unfold AcquireSector at h
  dsimp only at h
  split at h
  · simp only [Prod.mk.injEq] at h
    obtain ⟨-, rfl⟩ := h
    exact ⟨rfl, [Event.storageAcquire sector existing allocate sealing], rfl,
      by simp [Event.isAcquire]⟩
  · split at h
    · simp only [Prod.mk.injEq] at h
      obtain ⟨-, rfl⟩ := h
      rename_i p ids hacq _ _ hres
      exact ⟨rfl, [Event.storageAcquire sector existing allocate sealing,
        Event.reserve sector allocate ids], by simp [World.log], by simp [Event.isAcquire]⟩
    · simp at h

theorem scopedRelease_of_defer (env : Env) (w : World) (sector : SectorRef)
    (existing allocate : SectorFileType) (stageFailed : Bool) (w' : World)
    (hok : ∀ paths release w1,
      AcquireSector env w sector existing allocate PathSealing = (.ok (paths, release), w1) →
      ∃ wBody, w' = release wBody ∧ Steps w1 wBody)
    (herr : ∀ err w1,
      AcquireSector env w sector existing allocate PathSealing = (.error err, w1) →
      stageFailed = true ∧ w' = w1) :
    ScopedRelease env w sector existing allocate stageFailed w' := by
  refine ⟨?_, ?_⟩
  · intro paths release w1 hacq
    obtain ⟨wBody, hw', hsteps⟩ := hok paths release w1 hacq
    refine ⟨⟨wBody, hw', hsteps⟩, ?_⟩
    obtain ⟨ids, hrel, htr⟩ := AcquireSector_ok_inv env w w1 sector existing allocate _ paths
      release hacq
    obtain ⟨steps, hst, hcount⟩ := hsteps
    have htrace : w'.trace = w.trace ++
        ([Event.storageAcquire sector existing allocate PathSealing,
          Event.reserve sector allocate ids] ++ steps ++
          Event.releaseStorage :: declareEvents env sector allocate ids env.PathTypes) := by
      rw [hw', hrel, releaseFunc_trace, hst, htr]
      simp
    rw [htrace, List.drop_left]
    simp [List.count_append, hcount, declareEvents_no_release]
  · intro err w1 hacq
    obtain ⟨hf, hw'⟩ := herr err w1 hacq
    obtain ⟨hfs, evs, htr, hev⟩ := AcquireSector_error_inv env w w1 sector existing allocate _
      err hacq
    refine ⟨hf, hw', by rw [hw', hfs], ?_⟩
    rw [hw', htr, List.drop_left]
    exact hev

/-- C7: each of `GenerateSDR`, `TreeD`, `TreeRC` (once the layout is built, the
point at which it acquires) and `FinalizeSector` satisfies `ScopedRelease`: if
the acquisition succeeded the stage ends by running the release closure on the
world its later steps left, whatever those steps returned, and the reservation is
freed exactly once; if the acquisition failed the stage fails having made no
call but those of the acquisition. -/
theorem stages_scopedRelease (env : Env) (w : World) (sector : SectorRef) :
    (∀ ticket commKcid,
      ScopedRelease env w sector FTNone FTCache
        (failed (GenerateSDR env w sector ticket commKcid).1)
        (GenerateSDR env w sector ticket commKcid).2) ∧
    (∀ size data unpaddedData,
      ScopedRelease env w sector FTCache FTNone
        (failed (TreeD env w sector size data unpaddedData).1)
        (TreeD env w sector size data unpaddedData).2) ∧
    (∀ unsealed p1o,
      makePhase1Out env.cidToDataCommitmentV1 unsealed sector.ProofType = .ok p1o →
      ScopedRelease env w sector FTCache FTSealed
        (TreeRC env w sector unsealed).1.failed
        (TreeRC env w sector unsealed).2) ∧
    (∀ keepUnsealed,
      ScopedRelease env w sector FTCache (if keepUnsealed then FTUnsealed else FTNone)
        (failed (FinalizeSector env w sector keepUnsealed).1)
        (FinalizeSector env w sector keepUnsealed).2) := by
  refine ⟨?_, ?_, ?_, ?_⟩
  · intro ticket commKcid
    apply scopedRelease_of_defer
    · intro paths release w1 hacq
      refine ⟨(generateSDRBody env sector ticket commKcid paths w1).2, ?_,
        generateSDRBody_steps _ _ _ _ _ _⟩
      unfold GenerateSDR
      rw [hacq]
      rfl
    · intro err w1 hacq
      unfold GenerateSDR
      rw [hacq]
      exact ⟨rfl, rfl⟩
  · intro size data unpaddedData
    apply scopedRelease_of_defer
    · intro paths release w1 hacq
      refine ⟨(treeDBody env size data unpaddedData paths w1).2, ?_, treeDBody_steps _ _ _ _ _ _⟩
      unfold TreeD
      dsimp only
      rw [hacq]
      rfl
    · intro err w1 hacq
      unfold TreeD
      dsimp only
      rw [hacq]
      exact ⟨rfl, rfl⟩
  · intro unsealed p1o hp
    apply scopedRelease_of_defer
    · intro paths release w1 hacq
      refine ⟨(treeRCBody env sector p1o paths w1).2, ?_, treeRCBody_steps _ _ _ _ _⟩
      unfold TreeRC
      rw [hp]
      dsimp only
      rw [hacq]
      dsimp only [withDefer]
      split <;> rename_i h <;> simp only [Prod.mk.injEq] at h <;> exact h.2.symm
    · intro err w1 hacq
      unfold TreeRC
      rw [hp]
      dsimp only
      rw [hacq]
      exact ⟨rfl, rfl⟩
  · intro keepUnsealed
    apply scopedRelease_of_defer
    · intro paths release w1 hacq
      refine ⟨(finalizeSectorBody env sector keepUnsealed paths w1).2, ?_,
        finalizeSectorBody_steps _ _ _ _ _⟩
      unfold FinalizeSector
      dsimp only
      rw [hacq]
      rfl
    · intro err w1 hacq
      unfold FinalizeSector
      dsimp only
      rw [hacq]
      exact ⟨rfl, rfl⟩


/-! ## `FinalizeSector` -/

theorem FinalizeSector_of_acquired (env : Env) (w : World) (sector : SectorRef)
    (keepUnsealed : Bool) (paths ids : SectorPaths)
    (hacq : env.storageAcquireSector sector FTCache
      (if keepUnsealed then FTUnsealed else FTNone) PathSealing = .ok (paths, ids))
    (hres : env.localReserve sector (if keepUnsealed then FTUnsealed else FTNone) ids = .ok ()) :
    FinalizeSector env w sector keepUnsealed =
      ((finalizeSectorBody env sector keepUnsealed paths
          ((w.log (.storageAcquire sector FTCache
            (if keepUnsealed then FTUnsealed else FTNone) PathSealing)).log
            (.reserve sector (if keepUnsealed then FTUnsealed else FTNone) ids))).1,
        releaseFunc env sector (if keepUnsealed then FTUnsealed else FTNone) ids
          (finalizeSectorBody env sector keepUnsealed paths
            ((w.log (.storageAcquire sector FTCache
              (if keepUnsealed then FTUnsealed else FTNone) PathSealing)).log
              (.reserve sector (if keepUnsealed then FTUnsealed else FTNone) ids))).2) := by
  unfold FinalizeSector
  dsimp only
  rw [AcquireSector_ok env w sector FTCache _ PathSealing paths ids hacq hres]
  rfl

theorem keepUnsealedStep_ok_iff (env : Env) (sector : SectorRef) (paths : SectorPaths)
    (ssize : Nat) (w wk : World) :
    keepUnsealedStep env sector paths ssize w = (.ok (), wk) ↔
      ∃ w2 w3,
        osRename env w (filepathJoin paths.Cache env.TreeDName)
          (filepathJoin paths.Cache (env.SectorName sector.ID)) = (none, w2) ∧
        osTruncate env w2 (filepathJoin paths.Cache (env.SectorName sector.ID)) (int64 ssize) =
          (none, w3) ∧
        pathsMove env w3 (filepathJoin paths.Cache (env.SectorName sector.ID)) paths.Unsealed =
          (none, wk) := by
  unfold keepUnsealedStep
  dsimp only
  constructor
  · intro h
    split at h
    · simp at h
    · rename_i w2 h2
      split at h
      · simp at h
      · rename_i w3 h3
        split at h
        · simp at h
        · rename_i w4 h4
          simp only [Prod.mk.injEq, true_and] at h
          subst h
          exact ⟨w2, w3, h2, h3, h4⟩
  · rintro ⟨w2, w3, h2, h3, h4⟩
    simp only [h2, h3, h4]

theorem keepUnsealedStep_events (env : Env) (sector : SectorRef) (paths : SectorPaths)
    (ssize : Nat) (w : World) :
    ∃ evs, (keepUnsealedStep env sector paths ssize w).2.trace = w.trace ++ evs ∧
      ∀ e ∈ evs, e.isFileOp = true := by
  unfold keepUnsealedStep
  dsimp only
  have hr := osRename_trace env w (filepathJoin paths.Cache env.TreeDName)
    (filepathJoin paths.Cache (env.SectorName sector.ID))
  split
  · rename_i err w1 h1
    rw [h1] at hr
    exact ⟨[Event.rename (filepathJoin paths.Cache env.TreeDName)
      (filepathJoin paths.Cache (env.SectorName sector.ID))], hr, by simp [Event.isFileOp]⟩
  · rename_i w1 h1
    rw [h1] at hr
    have ht := osTruncate_trace env w1 (filepathJoin paths.Cache (env.SectorName sector.ID))
      (int64 ssize)
    split
    · rename_i err w2 h2
      rw [h2] at ht
      exact ⟨[Event.rename (filepathJoin paths.Cache env.TreeDName)
          (filepathJoin paths.Cache (env.SectorName sector.ID)),
        Event.truncate (filepathJoin paths.Cache (env.SectorName sector.ID)) (int64 ssize)],
        by rw [ht, hr]; simp, by simp [Event.isFileOp]⟩
    · rename_i w2 h2
      rw [h2] at ht
      have hm := pathsMove_trace env w2 (filepathJoin paths.Cache (env.SectorName sector.ID))
        paths.Unsealed
      split
      · rename_i err w3 h3
        rw [h3] at hm
        exact ⟨[Event.rename (filepathJoin paths.Cache env.TreeDName)
            (filepathJoin paths.Cache (env.SectorName sector.ID)),
          Event.truncate (filepathJoin paths.Cache (env.SectorName sector.ID)) (int64 ssize),
          Event.move (filepathJoin paths.Cache (env.SectorName sector.ID)) paths.Unsealed],
          by rw [hm, ht, hr]; simp, by simp [Event.isFileOp]⟩
      · rename_i w3 h3
        rw [h3] at hm
        exact ⟨[Event.rename (filepathJoin paths.Cache env.TreeDName)
            (filepathJoin paths.Cache (env.SectorName sector.ID)),
          Event.truncate (filepathJoin paths.Cache (env.SectorName sector.ID)) (int64 ssize),
          Event.move (filepathJoin paths.Cache (env.SectorName sector.ID)) paths.Unsealed],
          by rw [hm, ht, hr]; simp, by simp [Event.isFileOp]⟩


theorem int64_of_lt (n : Nat) (h : n < 2 ^ 63) : int64 n = (n : Int) := by
  unfold int64
  have h1 : n % 2 ^ 64 = n := Nat.mod_eq_of_lt (by omega)
  rw [h1, if_pos h]

theorem lt_of_int64_nonneg (n : Nat) (h64 : n < 2 ^ 64) (h0 : 0 ≤ int64 n) : n < 2 ^ 63 := by
  unfold int64 at h0
  rw [Nat.mod_eq_of_lt h64] at h0
  split_ifs at h0 with h
  · exact h
  · exfalso
    have : (n : Int) < 2 ^ 64 := by exact_mod_cast h64
    omega

theorem truncateBytes_of_le (content : List Nat) (n : Nat) (h : n ≤ content.length) :
    truncateBytes content n = content.take n := by
  unfold truncateBytes
  rw [Nat.sub_eq_zero_of_le h]
  simp

theorem osRename_ok_inv (env : Env) (w w2 : World) (src dst : String)
    (h : osRename env w src dst = (none, w2)) :
    ∃ content, w.fs src = some content ∧ w2.fs = (w.fs.remove src).write dst content := by
  unfold osRename at h
  dsimp only at h
  split at h
  · simp at h
  · split at h
    · simp at h
    · rename_i content hc
      simp only [Prod.mk.injEq, true_and] at h
      subst h
      exact ⟨content, hc, rfl⟩

theorem pathsMove_ok_inv (env : Env) (w w2 : World) (src dst : String)
    (h : pathsMove env w src dst = (none, w2)) :
    ∃ content, w.fs src = some content ∧ w2.fs = (w.fs.remove src).write dst content := by
  unfold pathsMove at h
  dsimp only at h
  split at h
  · simp at h
  · split at h
    · simp at h
    · rename_i content hc
      simp only [Prod.mk.injEq, true_and] at h
      subst h
      exact ⟨content, hc, rfl⟩

theorem osTruncate_ok_inv (env : Env) (w w2 : World) (path : String) (size : Int)
    (h : osTruncate env w path size = (none, w2)) :
    0 ≤ size ∧ ∃ content, w.fs path = some content ∧
      w2.fs = w.fs.write path (truncateBytes content size.toNat) := by
  unfold osTruncate at h
  dsimp only at h
  split at h
  · simp at h
  · split at h
    · simp at h
    · rename_i hneg
      split at h
      · simp at h
      · rename_i content hc
        simp only [Prod.mk.injEq, true_and] at h
        subst h
        exact ⟨by omega, content, hc, rfl⟩

theorem keepUnsealedStep_fs (env : Env) (sector : SectorRef) (paths : SectorPaths)
    (ssize : Nat) (w wk : World) (tree : List Nat)
    (hok : keepUnsealedStep env sector paths ssize w = (.ok (), wk))
    (htree : w.fs (filepathJoin paths.Cache env.TreeDName) = some tree)
    (hlen : ssize ≤ tree.length) (hs64 : ssize < 2 ^ 64)
    (hne : paths.Unsealed ≠ filepathJoin paths.Cache env.TreeDName) :
    wk.fs paths.Unsealed = some (tree.take ssize) ∧
      wk.fs (filepathJoin paths.Cache env.TreeDName) = none := by
  obtain ⟨w2, w3, h2, h3, h4⟩ := (keepUnsealedStep_ok_iff env sector paths ssize w wk).mp hok
  obtain ⟨c2, hc2, hfs2⟩ := osRename_ok_inv env w w2 _ _ h2
  rw [htree] at hc2
  obtain rfl : tree = c2 := Option.some.inj hc2
  obtain ⟨hnn, c3, hc3, hfs3⟩ := osTruncate_ok_inv env w2 w3 _ _ h3
  have hs : ssize < 2 ^ 63 := lt_of_int64_nonneg ssize hs64 hnn
  have hc3' : c3 = tree := by
    rw [hfs2] at hc3
    simpa [FS.write] using hc3.symm
  subst hc3'
  rw [int64_of_lt ssize hs, Int.toNat_ofNat, truncateBytes_of_le _ _ hlen] at hfs3
  obtain ⟨c4, hc4, hfs4⟩ := pathsMove_ok_inv env w3 wk _ _ h4
  have hc4' : c4 = c3.take ssize := by
    rw [hfs3] at hc4
    simpa [FS.write] using hc4.symm
  subst hc4'
  refine ⟨by rw [hfs4]; simp [FS.write], ?_⟩
  rw [hfs4, hfs3, hfs2]
  simp only [FS.write, FS.remove]
  rw [if_neg (Ne.symm hne)]
  split_ifs <;> rfl


theorem since_of_trace {w w' : World} (evs : List Event) (h : w'.trace = w.trace ++ evs) :
    w'.since w = evs := by
  unfold World.since
  rw [h, List.drop_left]

theorem declareEvents_none (env : Env) (sector : SectorRef) (ids : SectorPaths)
    (l : List SectorFileType) : declareEvents env sector FTNone ids l = [] := by
  induction l with
  | nil => rfl
  | cons ft rest ih =>
    unfold declareEvents
    rw [if_pos (by simp [FTNone])]
    exact ih

theorem clearCacheStep_result (env : Env) (paths : SectorPaths) (ssize : Nat) (w : World) :
    (clearCacheStep env paths ssize w).1 =
      match (env.ffiClearCache w.fs ssize paths.Cache).1 with
      | some err => .error (wrapErr "clearing cache" err)
      | none => .ok () := by
  unfold clearCacheStep
  dsimp only
  rcases h : env.ffiClearCache (w.log (Event.clearCache ssize paths.Cache)).fs ssize paths.Cache
    with ⟨_ | err, fs1⟩
  · have h' : env.ffiClearCache w.fs ssize paths.Cache = (none, fs1) := h
    rw [h']
  · have h' : env.ffiClearCache w.fs ssize paths.Cache = (some err, fs1) := h
    rw [h']

theorem clearCacheStep_trace (env : Env) (paths : SectorPaths) (ssize : Nat) (w : World) :
    (clearCacheStep env paths ssize w).2.trace =
      w.trace ++ [Event.clearCache ssize paths.Cache] := by
  unfold clearCacheStep
  dsimp only
  split <;> rfl

theorem clearCacheStep_fs (env : Env) (paths : SectorPaths) (ssize : Nat) (w : World) :
    (clearCacheStep env paths ssize w).2.fs = (env.ffiClearCache w.fs ssize paths.Cache).2 := by
  unfold clearCacheStep
  dsimp only
  rcases h : env.ffiClearCache (w.log (Event.clearCache ssize paths.Cache)).fs ssize paths.Cache
    with ⟨_ | err, fs1⟩
  · have h' : env.ffiClearCache w.fs ssize paths.Cache = (none, fs1) := h
    rw [h']
  · have h' : env.ffiClearCache w.fs ssize paths.Cache = (some err, fs1) := h
    rw [h']

theorem FinalizeSector_acquire_error (env : Env) (w : World) (sector : SectorRef)
    (keepUnsealed : Bool) (err : String)
    (hacq : env.storageAcquireSector sector FTCache
      (if keepUnsealed then FTUnsealed else FTNone) PathSealing = .error err) :
    FinalizeSector env w sector keepUnsealed =
      (.error (wrapErr "acquiring sector paths" err),
        w.log (.storageAcquire sector FTCache
          (if keepUnsealed then FTUnsealed else FTNone) PathSealing)) := by
  unfold FinalizeSector
  dsimp only
  rw [AcquireSector_acquire_error env w sector FTCache _ PathSealing err hacq]

theorem FinalizeSector_reserve_error (env : Env) (w : World) (sector : SectorRef)
    (keepUnsealed : Bool) (paths ids : SectorPaths) (err : String)
    (hacq : env.storageAcquireSector sector FTCache
      (if keepUnsealed then FTUnsealed else FTNone) PathSealing = .ok (paths, ids))
    (hres : env.localReserve sector (if keepUnsealed then FTUnsealed else FTNone) ids =
      .error err) :
    FinalizeSector env w sector keepUnsealed =
      (.error (wrapErr "acquiring sector paths" (wrapErr "reserving storage space" err)),
        (w.log (.storageAcquire sector FTCache
          (if keepUnsealed then FTUnsealed else FTNone) PathSealing)).log
          (.reserve sector (if keepUnsealed then FTUnsealed else FTNone) ids)) := by
  unfold FinalizeSector
  dsimp only
  rw [AcquireSector_reserve_error env w sector FTCache _ PathSealing paths ids err hacq hres]

theorem finalizeSectorBody_of_earlier (env : Env) (w : World) (sector : SectorRef)
    (keepUnsealed : Bool) (paths : SectorPaths) (ssize : Nat) (wk : World)
    (h : EarlierStepsOk env w sector keepUnsealed paths ssize wk) :
    ∃ ids,
      env.storageAcquireSector sector FTCache (if keepUnsealed then FTUnsealed else FTNone)
        PathSealing = .ok (paths, ids) ∧
      env.localReserve sector (if keepUnsealed then FTUnsealed else FTNone) ids = .ok () ∧
      finalizeSectorBody env sector keepUnsealed paths
          ((w.log (.storageAcquire sector FTCache
            (if keepUnsealed then FTUnsealed else FTNone) PathSealing)).log
            (.reserve sector (if keepUnsealed then FTUnsealed else FTNone) ids)) =
        clearCacheStep env paths ssize wk ∧
      ∃ evs, wk.trace = w.trace ++ evs := by
  obtain ⟨ids, hacq, hres, hsize, hk⟩ := h
  refine ⟨ids, hacq, hres, ?_, ?_⟩
  · unfold finalizeSectorBody
    rw [hsize]
    cases keepUnsealed with
    | false =>
      simp only [Bool.false_eq_true, if_false] at hk ⊢
      rw [hk]
    | true =>
      simp only [if_true] at hk ⊢
      rw [(keepUnsealedStep_ok_iff env sector paths ssize _ wk).mpr hk]
  · cases keepUnsealed with
    | false =>
      simp only [Bool.false_eq_true, if_false] at hk
      exact ⟨[Event.storageAcquire sector FTCache FTNone PathSealing,
        Event.reserve sector FTNone ids], by rw [hk]; simp [World.log]⟩
    | true =>
      simp only [if_true] at hk
      obtain ⟨w2, w3, h2, h3, h4⟩ := hk
      have t2 := osRename_trace env
        ((w.log (Event.storageAcquire sector FTCache FTUnsealed PathSealing)).log
          (Event.reserve sector FTUnsealed ids))
        (filepathJoin paths.Cache env.TreeDName)
        (filepathJoin paths.Cache (env.SectorName sector.ID))
      rw [h2] at t2
      have t3 := osTruncate_trace env w2 (filepathJoin paths.Cache (env.SectorName sector.ID))
        (int64 ssize)
      rw [h3] at t3
      have t4 := pathsMove_trace env w3 (filepathJoin paths.Cache (env.SectorName sector.ID))
        paths.Unsealed
      rw [h4] at t4
      exact ⟨[Event.storageAcquire sector FTCache FTUnsealed PathSealing,
        Event.reserve sector FTUnsealed ids,
        Event.rename (filepathJoin paths.Cache env.TreeDName)
          (filepathJoin paths.Cache (env.SectorName sector.ID)),
        Event.truncate (filepathJoin paths.Cache (env.SectorName sector.ID)) (int64 ssize),
        Event.move (filepathJoin paths.Cache (env.SectorName sector.ID)) paths.Unsealed],
        by rw [t4, t3, t2]; simp [World.log]⟩


theorem mem_since_release (env : Env) (sector : SectorRef) (allocate : SectorFileType)
    (ids : SectorPaths) (w x : World) (pre : List Event) (h : x.trace = w.trace ++ pre)
    (e : Event) :
    e ∈ (releaseFunc env sector allocate ids x).since w ↔
      e ∈ pre ∨ e = Event.releaseStorage ∨
        e ∈ declareEvents env sector allocate ids env.PathTypes := by
  have ht : (releaseFunc env sector allocate ids x).trace =
      w.trace ++ (pre ++ Event.releaseStorage ::
        declareEvents env sector allocate ids env.PathTypes) := by
    rw [releaseFunc_trace, h, List.append_assoc]
  rw [since_of_trace _ ht]
  simp

theorem finalizeSectorBody_size_error (env : Env) (sector : SectorRef) (keepUnsealed : Bool)
    (paths : SectorPaths) (w : World) (err : String)
    (h : env.sectorSize sector.ProofType = .error err) :
    finalizeSectorBody env sector keepUnsealed paths w =
      (.error (wrapErr "getting sector size" err), w) := by
  unfold finalizeSectorBody
  rw [h]

theorem finalizeSectorBody_keep_error (env : Env) (sector : SectorRef)
    (paths : SectorPaths) (w wk : World) (ssize : Nat) (err : String)
    (h : env.sectorSize sector.ProofType = .ok ssize)
    (hk : keepUnsealedStep env sector paths ssize w = (.error err, wk)) :
    finalizeSectorBody env sector true paths w = (.error err, wk) := by
  unfold finalizeSectorBody
  rw [h]
  simp only [if_true, hk]

theorem finalizeSectorBody_keep_ok (env : Env) (sector : SectorRef)
    (paths : SectorPaths) (w wk : World) (ssize : Nat)
    (h : env.sectorSize sector.ProofType = .ok ssize)
    (hk : keepUnsealedStep env sector paths ssize w = (.ok (), wk)) :
    finalizeSectorBody env sector true paths w = clearCacheStep env paths ssize wk := by
  unfold finalizeSectorBody
  rw [h]
  simp only [if_true, hk]

theorem finalizeSectorBody_drop (env : Env) (sector : SectorRef)
    (paths : SectorPaths) (w : World) (ssize : Nat)
    (h : env.sectorSize sector.ProofType = .ok ssize) :
    finalizeSectorBody env sector false paths w = clearCacheStep env paths ssize w := by
  unfold finalizeSectorBody
  rw [h]
  simp

theorem FinalizeSector_clear_imp_earlier (env : Env) (w : World) (sector : SectorRef)
    (keepUnsealed : Bool) (n : Nat) (c : String)
    (hmem : Event.clearCache n c ∈ (FinalizeSector env w sector keepUnsealed).2.since w) :
    ∃ paths ssize wk, EarlierStepsOk env w sector keepUnsealed paths ssize wk := by
  cases hacq : env.storageAcquireSector sector FTCache
      (if keepUnsealed then FTUnsealed else FTNone) PathSealing with
  | error err =>
    rw [FinalizeSector_acquire_error env w sector keepUnsealed err hacq,
      since_of_trace ([Event.storageAcquire sector FTCache
        (if keepUnsealed then FTUnsealed else FTNone) PathSealing]) rfl] at hmem
    simp at hmem
  | ok pi =>
    obtain ⟨paths, ids⟩ := pi
    cases hres : env.localReserve sector (if keepUnsealed then FTUnsealed else FTNone) ids with
    | error err =>
      rw [FinalizeSector_reserve_error env w sector keepUnsealed paths ids err hacq hres,
        since_of_trace ([Event.storageAcquire sector FTCache
          (if keepUnsealed then FTUnsealed else FTNone) PathSealing,
          Event.reserve sector (if keepUnsealed then FTUnsealed else FTNone) ids])
          (by simp [World.log])] at hmem
      simp at hmem
    | ok u =>
      rw [FinalizeSector_of_acquired env w sector keepUnsealed paths ids hacq hres] at hmem
      have hnd : Event.clearCache n c ∉ declareEvents env sector
          (if keepUnsealed then FTUnsealed else FTNone) ids env.PathTypes := by
        intro hm
        rcases declareEvents_kinds _ _ _ _ _ _ hm with h | h <;>
          simp [Event.isDeclare, Event.isLogError] at h
      cases hsize : env.sectorSize sector.ProofType with
      | error err =>
        rw [finalizeSectorBody_size_error env sector keepUnsealed paths _ err hsize] at hmem
        rw [mem_since_release env sector _ ids w _
          [Event.storageAcquire sector FTCache
            (if keepUnsealed then FTUnsealed else FTNone) PathSealing,
           Event.reserve sector (if keepUnsealed then FTUnsealed else FTNone) ids]
          (by simp [World.log])] at hmem
        simp [hnd] at hmem
      | ok ssize =>
        cases keepUnsealed with
        | false =>
          exact ⟨paths, ssize,
            (w.log (Event.storageAcquire sector FTCache FTNone PathSealing)).log
              (Event.reserve sector FTNone ids), ids, hacq, hres, hsize, by simp⟩
        | true =>
          rcases hks : keepUnsealedStep env sector paths ssize
              ((w.log (Event.storageAcquire sector FTCache FTUnsealed PathSealing)).log
                (Event.reserve sector FTUnsealed ids)) with ⟨r, wk⟩
          cases r with
          | ok u2 =>
            exact ⟨paths, ssize, wk, ids, hacq, hres, hsize, by
              simpa using (keepUnsealedStep_ok_iff env sector paths ssize _ wk).mp hks⟩
          | error err =>
            exfalso
            obtain ⟨evs, hevs, hfile⟩ := keepUnsealedStep_events env sector paths ssize
              ((w.log (Event.storageAcquire sector FTCache FTUnsealed PathSealing)).log
                (Event.reserve sector FTUnsealed ids))
            rw [hks] at hevs
            simp only [if_true] at hmem hnd
            rw [finalizeSectorBody_keep_error env sector paths _ wk ssize err hsize hks] at hmem
            rw [mem_since_release env sector _ ids w wk
              ([Event.storageAcquire sector FTCache FTUnsealed PathSealing,
                Event.reserve sector FTUnsealed ids] ++ evs)
              (by rw [hevs]; simp [World.log])] at hmem
            rcases hmem with h | h | h
            · simp only [List.mem_append, List.mem_cons, List.mem_singleton,
                List.not_mem_nil, or_false] at h
              rcases h with (h | h) | h
              · exact Event.noConfusion h
              · exact Event.noConfusion h
              · have := hfile _ h
                simp [Event.isFileOp] at this
            · exact Event.noConfusion h
            · exact hnd h


theorem FinalizeSector_drop_events (env : Env) (w : World) (sector : SectorRef) (e : Event)
    (hmem : e ∈ (FinalizeSector env w sector false).2.since w) :
    (∃ pt, e = Event.storageAcquire sector FTCache FTNone pt) ∨
      (∃ ids, e = Event.reserve sector FTNone ids) ∨
      (∃ n c, e = Event.clearCache n c) ∨ e = Event.releaseStorage := by
  cases hacq : env.storageAcquireSector sector FTCache
      (if false then FTUnsealed else FTNone) PathSealing with
  | error err =>
    rw [FinalizeSector_acquire_error env w sector false err hacq,
      since_of_trace ([Event.storageAcquire sector FTCache
        (if false then FTUnsealed else FTNone) PathSealing]) rfl] at hmem
    simp only [List.mem_singleton] at hmem
    exact Or.inl ⟨PathSealing, by simpa using hmem⟩
  | ok pi =>
    obtain ⟨paths, ids⟩ := pi
    cases hres : env.localReserve sector (if false then FTUnsealed else FTNone) ids with
    | error err =>
      rw [FinalizeSector_reserve_error env w sector false paths ids err hacq hres,
        since_of_trace ([Event.storageAcquire sector FTCache
          (if false then FTUnsealed else FTNone) PathSealing,
          Event.reserve sector (if false then FTUnsealed else FTNone) ids])
          (by simp [World.log])] at hmem
      simp only [List.mem_cons, List.mem_singleton, List.not_mem_nil, or_false] at hmem
      rcases hmem with h | h
      · exact Or.inl ⟨PathSealing, by simpa using h⟩
      · exact Or.inr (Or.inl ⟨ids, by simpa using h⟩)
    | ok u =>
      rw [FinalizeSector_of_acquired env w sector false paths ids hacq hres] at hmem
      have hpre : ∃ body, (finalizeSectorBody env sector false paths
            ((w.log (.storageAcquire sector FTCache
              (if false then FTUnsealed else FTNone) PathSealing)).log
              (.reserve sector (if false then FTUnsealed else FTNone) ids))).2.trace =
          w.trace ++ ([Event.storageAcquire sector FTCache FTNone PathSealing,
            Event.reserve sector FTNone ids] ++ body) ∧
          ∀ x ∈ body, ∃ n c, x = Event.clearCache n c := by
        cases hsize : env.sectorSize sector.ProofType with
        | error err =>
          rw [finalizeSectorBody_size_error env sector false paths _ err hsize]
          exact ⟨[], by simp [World.log], by simp⟩
        | ok ssize =>
          rw [finalizeSectorBody_drop env sector paths _ ssize hsize, clearCacheStep_trace]
          exact ⟨[Event.clearCache ssize paths.Cache], by simp [World.log], by simp⟩
      obtain ⟨body, hbody, hcl⟩ := hpre
      rw [mem_since_release env sector _ ids w _ _ hbody] at hmem
      rcases hmem with h | h | h
      · simp only [List.mem_append, List.mem_cons, List.mem_singleton, List.not_mem_nil,
          or_false] at h
        rcases h with (h | h) | h
        · exact Or.inl ⟨PathSealing, h⟩
        · exact Or.inr (Or.inl ⟨ids, h⟩)
        · exact Or.inr (Or.inr (Or.inl (hcl e h)))
      · exact Or.inr (Or.inr (Or.inr h))
      · have hn : declareEvents env sector (if false = true then FTUnsealed else FTNone) ids
            env.PathTypes = [] := by
          simpa using declareEvents_none env sector ids env.PathTypes
        rw [hn] at h
        simp at h


/-- C8: (1) when `FinalizeSector` with `keepUnsealed` succeeds on a cache whose
tree file has at least `ssize` bytes (`ssize` a `uint64`, the unsealed path not
being the tree file's path, and the clearing routine leaving the unsealed path
and an absent tree file alone), the unsealed path holds exactly the first `ssize` bytes of the tree file
and the tree file is gone from the cache; (2) without `keepUnsealed` the only
calls are the acquisition and reservation with the empty allocate set, the
clearing of the cache and the release: no rename, truncation, move or
declaration; (3) the cache is cleared exactly when all earlier steps succeeded;
(4) and then the stage returns what the clearing returned, an error if it
failed. -/
theorem FinalizeSector_contract (env : Env) (w : World) (sector : SectorRef) :
    (∀ paths ids ssize tree,
      env.storageAcquireSector sector FTCache FTUnsealed PathSealing = .ok (paths, ids) →
      env.sectorSize sector.ProofType = .ok ssize → ssize < 2 ^ 64 →
      w.fs (filepathJoin paths.Cache env.TreeDName) = some tree → ssize ≤ tree.length →
      paths.Unsealed ≠ filepathJoin paths.Cache env.TreeDName →
      (∀ fs, (env.ffiClearCache fs ssize paths.Cache).2 paths.Unsealed = fs paths.Unsealed ∧
        (fs (filepathJoin paths.Cache env.TreeDName) = none →
          (env.ffiClearCache fs ssize paths.Cache).2
            (filepathJoin paths.Cache env.TreeDName) = none)) →
      (FinalizeSector env w sector true).1 = .ok () →
      (FinalizeSector env w sector true).2.fs paths.Unsealed = some (tree.take ssize) ∧
        (tree.take ssize).length = ssize ∧
        (FinalizeSector env w sector true).2.fs (filepathJoin paths.Cache env.TreeDName) =
          none) ∧
    (∀ e ∈ (FinalizeSector env w sector false).2.since w,
      e.isFileOp = false ∧ e.isDeclare = false ∧
        (∀ s ex al pt, e = Event.storageAcquire s ex al pt → al = FTNone) ∧
        (∀ s al ids, e = Event.reserve s al ids → al = FTNone)) ∧
    (∀ keepUnsealed,
      (∃ n c, Event.clearCache n c ∈ (FinalizeSector env w sector keepUnsealed).2.since w) ↔
        ∃ paths ssize wk, EarlierStepsOk env w sector keepUnsealed paths ssize wk) ∧
    (∀ keepUnsealed paths ssize wk,
      EarlierStepsOk env w sector keepUnsealed paths ssize wk →
      (FinalizeSector env w sector keepUnsealed).1 =
        match (env.ffiClearCache wk.fs ssize paths.Cache).1 with
        | some err => .error (wrapErr "clearing cache" err)
        | none => .ok ()) := by
  refine ⟨?_, ?_, ?_, ?_⟩
  · intro paths ids ssize tree hacq hsize hs htree hlen hne hframe hok
    have hacq' : env.storageAcquireSector sector FTCache
        (if true then FTUnsealed else FTNone) PathSealing = .ok (paths, ids) := hacq
    cases hres : env.localReserve sector (if true then FTUnsealed else FTNone) ids with
    | error err =>
      rw [FinalizeSector_reserve_error env w sector true paths ids err hacq' hres] at hok
      simp at hok
    | ok u =>
      rw [FinalizeSector_of_acquired env w sector true paths ids hacq' hres] at hok ⊢
      rcases hks : keepUnsealedStep env sector paths ssize
          ((w.log (Event.storageAcquire sector FTCache
            (if true then FTUnsealed else FTNone) PathSealing)).log
            (Event.reserve sector (if true then FTUnsealed else FTNone) ids)) with ⟨r, wk⟩
      cases r with
      | error err =>
        rw [finalizeSectorBody_keep_error env sector paths _ wk ssize err hsize hks] at hok
        simp at hok
      | ok u2 =>
        rw [finalizeSectorBody_keep_ok env sector paths _ wk ssize hsize hks]
        obtain ⟨hu, ht⟩ := keepUnsealedStep_fs env sector paths ssize _ wk tree hks htree hlen
          hs hne
        simp only [releaseFunc_fs, clearCacheStep_fs]
        refine ⟨?_, ?_, ?_⟩
        · rw [(hframe wk.fs).1, hu]
        · rw [List.length_take]
          omega
        · exact (hframe wk.fs).2 ht
  · intro e he
    rcases FinalizeSector_drop_events env w sector e he with
      ⟨pt, rfl⟩ | ⟨ids, rfl⟩ | ⟨n, c, rfl⟩ | rfl
    · refine ⟨rfl, rfl, ?_, ?_⟩
      · intro s ex al pt' h
        simp only [Event.storageAcquire.injEq] at h
        exact h.2.2.1.symm
      · intro s al ids h
        exact Event.noConfusion h
    · refine ⟨rfl, rfl, ?_, ?_⟩
      · intro s ex al pt' h
        exact Event.noConfusion h
      · intro s al ids' h
        simp only [Event.reserve.injEq] at h
        exact h.2.1.symm
    · exact ⟨rfl, rfl, fun _ _ _ _ h => Event.noConfusion h, fun _ _ _ h => Event.noConfusion h⟩
    · exact ⟨rfl, rfl, fun _ _ _ _ h => Event.noConfusion h, fun _ _ _ h => Event.noConfusion h⟩
  · intro keepUnsealed
    constructor
    · rintro ⟨n, c, hmem⟩
      exact FinalizeSector_clear_imp_earlier env w sector keepUnsealed n c hmem
    · rintro ⟨paths, ssize, wk, hearlier⟩
      obtain ⟨ids, hacq, hres, hbody, evs, hevs⟩ :=
        finalizeSectorBody_of_earlier env w sector keepUnsealed paths ssize wk hearlier
      refine ⟨ssize, paths.Cache, ?_⟩
      rw [FinalizeSector_of_acquired env w sector keepUnsealed paths ids hacq hres, hbody]
      rw [mem_since_release env sector _ ids w _ (evs ++ [Event.clearCache ssize paths.Cache])
        (by rw [clearCacheStep_trace, hevs, List.append_assoc])]
      exact Or.inl (by simp)
  · intro keepUnsealed paths ssize wk hearlier
    obtain ⟨ids, hacq, hres, hbody, -⟩ :=
      finalizeSectorBody_of_earlier env w sector keepUnsealed paths ssize wk hearlier
    rw [FinalizeSector_of_acquired env w sector keepUnsealed paths ids hacq hres, hbody]
    exact clearCacheStep_result env paths ssize wk

/-- Witness of C8: in the sample environment (four-byte sectors) and a cache with
an eight-byte tree file, `FinalizeSector` with `keepUnsealed` succeeds, the
unsealed file is the first four bytes and the tree file is gone. -/
theorem FinalizeSector_contract_witness :
    (FinalizeSector sampleEnv treeWorld sampleSector true).1 = .ok () ∧
      (FinalizeSector sampleEnv treeWorld sampleSector true).2.fs "unsealed" =
        some [1, 2, 3, 4] ∧
      (FinalizeSector sampleEnv treeWorld sampleSector true).2.fs "cache/tree-d" = none := by
  have hok : (FinalizeSector sampleEnv treeWorld sampleSector true).1 = .ok () := by rfl
  have h := (FinalizeSector_contract sampleEnv treeWorld sampleSector).1
    ⟨sampleSector.ID, "unsealed", "sealed", "cache"⟩ ⟨sampleSector.ID, "id-u", "id-s", "id-c"⟩
    4 [1, 2, 3, 4, 5, 6, 7, 8] rfl rfl (by norm_num) (by decide) (by decide) (by decide)
    (fun fs => ⟨rfl, fun h => h⟩) hok
  exact ⟨hok, h.1, h.2.2⟩


/-! ## `MoveStorage` -/

theorem removeCopiesLoop_events (env : Env) (sector : SectorRef) (l : List SectorFileType)
    (w : World) :
    ∃ evs, (removeCopiesLoop env sector l w).2.trace = w.trace ++ evs ∧
      ∀ e ∈ evs, ∃ ft, e = Event.removeCopies sector.ID ft := by
  induction l generalizing w with
  | nil => exact ⟨[], by simp [removeCopiesLoop], by simp⟩
  | cons ft rest ih =>
    unfold removeCopiesLoop
    dsimp only
    split
    · exact ⟨[Event.removeCopies sector.ID ft], rfl, by simp⟩
    · obtain ⟨evs, hevs, hall⟩ := ih (w.log (Event.removeCopies sector.ID ft))
      refine ⟨Event.removeCopies sector.ID ft :: evs, by rw [hevs]; simp [World.log], ?_⟩
      intro e he
      rcases List.mem_cons.mp he with rfl | he
      · exact ⟨ft, rfl⟩
      · exact hall e he

theorem removeCopiesLoop_events_after (env : Env) (sector : SectorRef)
    (l : List SectorFileType) (w : World) (base pre : List Event)
    (h : w.trace = base ++ pre) :
    ∃ evs, (removeCopiesLoop env sector l w).2.trace = base ++ (pre ++ evs) ∧
      ∀ e ∈ evs, ∃ ft, e = Event.removeCopies sector.ID ft := by
  obtain ⟨evs, hevs, hall⟩ := removeCopiesLoop_events env sector l w
  exact ⟨evs, by rw [hevs, h, List.append_assoc], hall⟩

theorem sectorStorageType_of_find (env : Env) (w : World) (sector : SectorRef)
    (ft : SectorFileType) (stores : List SectorStorageInfo)
    (hfind : env.storageFindSector sector.ID ft = .ok stores) :
    sectorStorageType env w sector ft =
      (.ok (if stores.length = 0 then (false, "")
            else if stores.any (fun store => store.CanSeal) then (true, PathSealing)
            else (true, PathStorage)),
        w.log (Event.findSector sector.ID ft)) := by
  unfold sectorStorageType
  simp only [hfind]
  split_ifs <;> rfl

theorem MoveStorage_of_type (env : Env) (w w1 : World) (sector : SectorRef) (found : Bool)
    (pt : PathType)
    (h : sectorStorageType env w sector FTUnsealed = (.ok (found, pt), w1)) :
    ∃ evs, (MoveStorage env w sector).2.trace =
        w1.trace ++ ([Event.moveStorage sector (FTCache ||| FTSealed |||
          (if (!found || pt == PathStorage) = true then FTNone else FTUnsealed))] ++ evs) ∧
      ∀ e ∈ evs, ∃ ft, e = Event.removeCopies sector.ID ft := by
  unfold MoveStorage
  rw [h]
  dsimp only
  split
  · exact ⟨[], by simp [World.log], by simp⟩
  · exact removeCopiesLoop_events_after env sector _ _ w1.trace _ rfl

theorem MoveStorage_trace (env : Env) (w : World) (sector : SectorRef)
    (stores : List SectorStorageInfo)
    (hfind : env.storageFindSector sector.ID FTUnsealed = .ok stores) :
    ∃ evs, (MoveStorage env w sector).2.since w =
        [Event.findSector sector.ID FTUnsealed,
          Event.moveStorage sector (FTCache ||| FTSealed |||
            (if stores.length = 0 then FTNone
             else if stores.any (fun store => store.CanSeal) then FTUnsealed else FTNone))] ++
          evs ∧
      ∀ e ∈ evs, ∃ ft, e = Event.removeCopies sector.ID ft := by
  have ht := sectorStorageType_of_find env w sector FTUnsealed stores hfind
  by_cases h0 : stores.length = 0
  · rw [if_pos h0] at ht
    obtain ⟨evs, hevs, hall⟩ := MoveStorage_of_type env w _ sector false "" ht
    refine ⟨evs, ?_, hall⟩
    rw [if_pos h0]
    exact since_of_trace _ (by rw [hevs]; simp [World.log])
  · rw [if_neg h0] at ht
    by_cases hany : stores.any (fun store => store.CanSeal) = true
    · rw [if_pos hany] at ht
      obtain ⟨evs, hevs, hall⟩ := MoveStorage_of_type env w _ sector true PathSealing ht
      refine ⟨evs, ?_, hall⟩
      rw [if_neg h0, if_pos hany]
      exact since_of_trace _ (by rw [hevs]; simp [World.log, PathSealing, PathStorage])
    · rw [if_neg hany] at ht
      obtain ⟨evs, hevs, hall⟩ := MoveStorage_of_type env w _ sector true PathStorage ht
      refine ⟨evs, ?_, hall⟩
      rw [if_neg h0, if_neg hany]
      exact since_of_trace _ (by rw [hevs]; simp [World.log])

/-- C3, as amended: when the index returns `stores` for the sector's unsealed
file, `MoveStorage` calls the store's move operation once, for this sector, with
a set that contains Cache and Sealed, and that does not contain Unsealed whenever
`stores` is empty or no location in `stores` is sealing-capable. -/
theorem MoveStorage_move_set (env : Env) (w : World) (sector : SectorRef)
    (stores : List SectorStorageInfo)
    (hfind : env.storageFindSector sector.ID FTUnsealed = .ok stores) :
    ∃ toMove,
      ((MoveStorage env w sector).2.since w).count (Event.moveStorage sector toMove) = 1 ∧
      (∀ s t, Event.moveStorage s t ∈ (MoveStorage env w sector).2.since w →
        s = sector ∧ t = toMove) ∧
      toMove &&& FTCache ≠ 0 ∧ toMove &&& FTSealed ≠ 0 ∧
      ((stores = [] ∨ ∀ s ∈ stores, s.CanSeal = false) → toMove &&& FTUnsealed = 0) := by
  obtain ⟨evs, hevs, hall⟩ := MoveStorage_trace env w sector stores hfind
  have hnot : ∀ s t, Event.moveStorage s t ∉ evs := by
    intro s t hm
    obtain ⟨ft, hft⟩ := hall _ hm
    exact Event.noConfusion hft
  refine ⟨FTCache ||| FTSealed |||
    (if stores.length = 0 then FTNone
     else if stores.any (fun store => store.CanSeal) then FTUnsealed else FTNone),
    ?_, ?_, ?_, ?_, ?_⟩
  · rw [hevs, List.count_append, List.count_eq_zero.mpr (hnot _ _)]
    simp
  · intro s t hm
    rw [hevs] at hm
    simp only [List.mem_append, List.mem_cons, List.mem_singleton, List.not_mem_nil,
      or_false] at hm
    rcases hm with (hm | hm) | hm
    · exact Event.noConfusion hm
    · simp only [Event.moveStorage.injEq] at hm
      exact hm
    · exact absurd hm (hnot s t)
  · split_ifs <;> decide
  · split_ifs <;> decide
  · rintro (rfl | hno)
    · simp only [List.length_nil, if_true]
      decide
    · have hany : stores.any (fun store => store.CanSeal) = false := by
        rw [List.any_eq_false]
        intro s hs
        simp [hno s hs]
      simp only [hany, Bool.false_eq_true, if_false, ite_self]
      decide

/-- Witness of C3 as amended: in the sample environment the index finds no
location, and the move set is Cache and Sealed only. -/
theorem MoveStorage_move_set_witness :
    ∃ toMove,
      ((MoveStorage sampleEnv emptyWorld sampleSector).2.since emptyWorld).count
        (Event.moveStorage sampleSector toMove) = 1 ∧
      toMove &&& FTCache ≠ 0 ∧ toMove &&& FTSealed ≠ 0 ∧ toMove &&& FTUnsealed = 0 := by
  obtain ⟨toMove, h1, -, h3, h4, h5⟩ :=
    MoveStorage_move_set sampleEnv emptyWorld sampleSector [] rfl
  exact ⟨toMove, h1, h3, h4, h5 (Or.inl rfl)⟩

/-- C3 as stated fails: with the unsealed file on two locations, one
sealing-capable and one not, the file does reside on a location that is not
sealing-capable, yet the set passed to the move operation is 7, which contains
Unsealed. -/
theorem MoveStorage_mixed_locations :
    mixedEnv.storageFindSector sampleSector.ID FTUnsealed =
        .ok [⟨"seal-1", true, false⟩, ⟨"store-1", false, true⟩] ∧
      (∃ s ∈ [(⟨"seal-1", true, false⟩ : SectorStorageInfo), ⟨"store-1", false, true⟩],
        s.CanSeal = false) ∧
      (MoveStorage mixedEnv emptyWorld sampleSector).2.since emptyWorld =
        [Event.findSector sampleSector.ID FTUnsealed, Event.moveStorage sampleSector 7,
          Event.removeCopies sampleSector.ID FTUnsealed,
          Event.removeCopies sampleSector.ID FTSealed,
          Event.removeCopies sampleSector.ID FTCache] ∧
      (7 : SectorFileType) &&& FTUnsealed ≠ 0 :=
  ⟨rfl, ⟨⟨"store-1", false, true⟩, by simp, rfl⟩, by decide, by decide⟩

/-! ## The copy step of `TreeRC` -/

theorem reflinkAlways_of_source (env : Env) (w : World) (src dst : String)
    (content : List Nat) (h : w.fs src = some content) :
    reflinkAlways env w src dst =
      match env.reflinkFault src dst with
      | some err => (some err, w.log (Event.reflink src dst))
      | none => (none, { w.log (Event.reflink src dst) with fs := w.fs.write dst content }) := by
  unfold reflinkAlways
  have h1 : (w.log (Event.reflink src dst)).fs src = some content := h
  simp only [h1]
  rfl

theorem osOpenFile_ok_inv (env : Env) (w w2 : World) (path : String)
    (h : osOpenFile env w path = (none, w2)) :
    w2.fs = w.fs.write path ((w.fs path).getD []) := by
  unfold osOpenFile at h
  dsimp only at h
  split at h
  · simp at h
  · split at h
    · rename_i hc
      simp only [Prod.mk.injEq, true_and] at h
      subst h
      have hc' : w.fs path = none := hc
      simp [World.log, hc']
    · rename_i c hc
      simp only [Prod.mk.injEq, true_and] at h
      subst h
      have hc' : w.fs path = some c := hc
      funext q
      simp only [World.log, FS.write, hc', Option.getD_some]
      split_ifs with hq
      · rw [hq, hc']
      · rfl

theorem osOpen_ok_inv (env : Env) (w w2 : World) (path : String)
    (h : osOpen env w path = (none, w2)) : w2.fs = w.fs := by
  unfold osOpen at h
  dsimp only at h
  split at h
  · simp at h
  · split at h
    · simp at h
    · simp only [Prod.mk.injEq, true_and] at h
      subst h
      rfl

theorem ioCopyN_ok_inv (env : Env) (w : World) (dst src : String) (n : Nat)
    (tree : List Nat) (hsrc : w.fs src = some tree) (hn : n < 2 ^ 63)
    (h : (ioCopyN env w dst src (int64 n)).1 = none) :
    n ≤ tree.length ∧
      (ioCopyN env w dst src (int64 n)).2.fs =
        w.fs.write dst (writeAtStart ((w.fs dst).getD []) (tree.take n)) := by
  unfold ioCopyN at h ⊢
  dsimp only at h ⊢
  have hsrc' : (w.log (Event.copyN (int64 n))).fs src = some tree := hsrc
  rw [int64_of_lt n hn] at h ⊢
  cases hf : env.copyFault with
  | some kerr =>
    simp only [hf] at h
    simp at h
  | none =>
    simp only [hf] at h
    simp only [hsrc, World.log, Option.getD_some, Int.toNat_ofNat] at h ⊢
    split_ifs at h with hlt
    rw [if_neg hlt]
    simp only [List.length_take, Nat.cast_lt, not_lt] at hlt
    exact ⟨by omega, rfl⟩

/-- What the copy step of `TreeRC` leaves at the sealed path when it succeeds,
for a tree file of at least `ssize` bytes: the first `ssize` bytes of the tree
file, followed, on the slow-copy path only, by whatever the file already at the
sealed path held beyond `ssize` bytes. -/
theorem copyTreeDToSealed_content (env : Env) (paths : SectorPaths) (ssize : Nat) (w : World)
    (tree : List Nat)
    (htree : w.fs (filepathJoin paths.Cache env.TreeDName) = some tree)
    (hlen : ssize ≤ tree.length) (hs : ssize < 2 ^ 63)
    (hne : paths.Sealed ≠ filepathJoin paths.Cache env.TreeDName)
    (hok : (copyTreeDToSealed env paths ssize w).1 = .ok ()) :
    (copyTreeDToSealed env paths ssize w).2.fs paths.Sealed =
      some (tree.take ssize ++
        match env.reflinkFault (filepathJoin paths.Cache env.TreeDName) paths.Sealed with
        | none => []
        | some _ => ((w.fs paths.Sealed).getD []).drop ssize) := by
  unfold copyTreeDToSealed at hok ⊢
  dsimp only at hok ⊢
  rw [reflinkAlways_of_source env w _ paths.Sealed tree htree] at hok ⊢
  cases hf : env.reflinkFault (filepathJoin paths.Cache env.TreeDName) paths.Sealed with
  | none =>
    simp only [hf] at hok ⊢
    split at hok
    · simp at hok
    · rename_i w2 h2
      obtain ⟨-, c, hc, hfs⟩ := osTruncate_ok_inv env _ w2 _ _ h2
      have hc' : c = tree := by simpa [FS.write] using hc.symm
      subst hc'
      rw [int64_of_lt ssize hs, Int.toNat_ofNat, truncateBytes_of_le _ _ hlen] at hfs
      simp only [hfs, FS.write, if_true, List.append_nil]
  | some err =>
    simp only [hf] at hok ⊢
    split at hok
    · simp at hok
    · rename_i w3 h3
      have hfs3 := osOpenFile_ok_inv env _ w3 _ h3
      split at hok
      · simp at hok
      · rename_i w4 h4
        have hfs4 := osOpen_ok_inv env w3 w4 _ h4
        have hsrc4 : w4.fs (filepathJoin paths.Cache env.TreeDName) = some tree := by
          rw [hfs4, hfs3]
          simp only [FS.write, World.log]
          rw [if_neg (Ne.symm hne)]
          exact htree
        have hdst4 : w4.fs paths.Sealed = some ((w.fs paths.Sealed).getD []) := by
          rw [hfs4, hfs3]
          simp [FS.write, World.log]
        cases hcopy : (ioCopyN env w4 paths.Sealed (filepathJoin paths.Cache env.TreeDName)
            (int64 ssize)).1 with
        | some e =>
          rw [hcopy] at hok
          simp at hok
        | none =>
          obtain ⟨-, hfs5⟩ := ioCopyN_ok_inv env w4 paths.Sealed _ ssize tree hsrc4 hs hcopy
          have hfinal : ∀ x : Except String Unit × World,
              x.2.fs = (ioCopyN env w4 paths.Sealed (filepathJoin paths.Cache env.TreeDName)
                (int64 ssize)).2.fs →
              x.2.fs paths.Sealed = some (tree.take ssize ++
                ((w.fs paths.Sealed).getD []).drop ssize) := by
            intro x hx
            rw [hx, hfs5, hdst4]
            simp only [FS.write, if_true, writeAtStart, Option.getD_some, List.length_take]
            rw [Nat.min_eq_left hlen]
          apply hfinal
          dsimp only
          split <;> rfl

/-- C5, the code on a stale sealed file: the tree file has eight bytes, the
sector size is four, the sealed path already holds six bytes. Where reflink is
not supported the copy step succeeds and leaves a six-byte sealed file, the
four copied bytes followed by the old tail; where reflink works the same step
leaves exactly the four leading bytes. -/
theorem copyTreeDToSealed_stale_tail :
    (copyTreeDToSealed noReflinkEnv samplePaths 4 staleSealedWorld).1 = .ok () ∧
      (copyTreeDToSealed noReflinkEnv samplePaths 4 staleSealedWorld).2.fs "sealed" =
        some [1, 2, 3, 4, 9, 9] ∧
      (copyTreeDToSealed sampleEnv samplePaths 4 staleSealedWorld).1 = .ok () ∧
      (copyTreeDToSealed sampleEnv samplePaths 4 staleSealedWorld).2.fs "sealed" =
        some [1, 2, 3, 4] :=
  ⟨by rfl, by rfl, by rfl, by rfl⟩


end Lpffi
